import Mathlib

/-!
Verification of the value-formatting and quote-selection engine of the `hl`
log renderer (`src/formatting.rs`), as a shallow embedding in Lean.

Bytes are modelled as `Nat`, byte buffers as `List Nat`.  Fallible code
(decode failures, `unwrap` of lazy parses, out-of-range indexing) is
modelled with `Option`, `none` standing for a fatal error of the enclosing
format call.  The styling sink (`StylingPush`) is modelled by recording the
sequence of sink operations as a list of tokens.
-/

namespace Hl

/-- Convert a pure-ASCII string literal to its byte list. -/
def strBytes (s : String) : List Nat := s.data.map Char.toNat

/-! ### Byte classification (`Mask` and `CHAR_GROUPS`, formatting.rs lines 795-837)

The `#[bitmask(u8)]` enum `Mask` assigns flags in declaration order:
Control = 1, DoubleQuote = 2, SingleQuote = 4, Backslash = 8, Backtick = 16,
Space = 32, ExtendedSpace = 64, EqualSign = 128. -/

def mControl : Nat := 1
def mDoubleQuote : Nat := 2
def mSingleQuote : Nat := 4
def mBackslash : Nat := 8
def mBacktick : Nat := 16
def mSpace : Nat := 32
def mExtendedSpace : Nat := 64
def mEqualSign : Nat := 128

/-- The constant `XS = Mask::Control.or(Mask::ExtendedSpace)` used both in the
`CHAR_GROUPS` table (for 0x09, 0x0A, 0x0D) and in step 4 of
`ValueFormatAuto::format`. -/
def mXS : Nat := mControl ||| mExtendedSpace

def CT : Nat := mControl
def DQ : Nat := mDoubleQuote
def SQ : Nat := mSingleQuote
def BS : Nat := mBackslash
def BT : Nat := mBacktick
def SP : Nat := mSpace
def EQS : Nat := mEqualSign
def XS : Nat := mXS
def NG : Nat := 0

/-- The 256-entry per-byte category table `CHAR_GROUPS`. -/
def CHAR_GROUPS : List Nat :=
  [ CT, CT, CT, CT, CT, CT, CT, CT, CT, XS, XS, CT, CT, XS, CT, CT,  -- 0
    CT, CT, CT, CT, CT, CT, CT, CT, CT, CT, CT, CT, CT, CT, CT, CT,  -- 1
    SP, NG, DQ, NG, NG, NG, NG, SQ, NG, NG, NG, NG, NG, NG, NG, NG,  -- 2
    NG, NG, NG, NG, NG, NG, NG, NG, NG, NG, NG, NG, NG, EQS, NG, NG,  -- 3
    NG, NG, NG, NG, NG, NG, NG, NG, NG, NG, NG, NG, NG, NG, NG, NG,  -- 4
    NG, NG, NG, NG, NG, NG, NG, NG, NG, NG, NG, NG, BS, NG, NG, NG,  -- 5
    BT, NG, NG, NG, NG, NG, NG, NG, NG, NG, NG, NG, NG, NG, NG, NG,  -- 6
    NG, NG, NG, NG, NG, NG, NG, NG, NG, NG, NG, NG, NG, NG, NG, NG,  -- 7
    NG, NG, NG, NG, NG, NG, NG, NG, NG, NG, NG, NG, NG, NG, NG, NG,  -- 8
    NG, NG, NG, NG, NG, NG, NG, NG, NG, NG, NG, NG, NG, NG, NG, NG,  -- 9
    NG, NG, NG, NG, NG, NG, NG, NG, NG, NG, NG, NG, NG, NG, NG, NG,  -- A
    NG, NG, NG, NG, NG, NG, NG, NG, NG, NG, NG, NG, NG, NG, NG, NG,  -- B
    NG, NG, NG, NG, NG, NG, NG, NG, NG, NG, NG, NG, NG, NG, NG, NG,  -- C
    NG, NG, NG, NG, NG, NG, NG, NG, NG, NG, NG, NG, NG, NG, NG, NG,  -- D
    NG, NG, NG, NG, NG, NG, NG, NG, NG, NG, NG, NG, NG, NG, NG, NG,  -- E
    NG, NG, NG, NG, NG, NG, NG, NG, NG, NG, NG, NG, NG, NG, NG, NG ]  -- F

/-- `CHAR_GROUPS[c]` lookup (indices above 255 do not occur for bytes). -/
def charGroup (c : Nat) : Nat := CHAR_GROUPS.getD c 0

/-- The bitwise-OR accumulation of per-byte categories over a decoded byte
run (formatting.rs lines 609-613). -/
def maskOf (d : List Nat) : Nat := d.foldl (fun m c => m ||| charGroup c) 0

/-! ### Encoded strings (external `encstr` collaborator, interface level)

An `EncodedString` is either already-decoded raw bytes or escape-encoded
source bytes.  The external decode primitive is modelled by storing the
decode outcome (`none` = malformed escape sequence).  The external
emptiness check is modelled as emptiness of the decoded content. -/

inductive EncodedString where
  | raw (bytes : List Nat)
  | json (source : List Nat) (decoded : Option (List Nat))
deriving DecidableEq, Repr

/-- `decode`: raw strings decode to themselves, escape-encoded strings to
their stored decode outcome. -/
def EncodedString.decode : EncodedString → Option (List Nat)
  | .raw b => some b
  | .json _ d => d

/-- `is_empty` of the external interface. -/
def EncodedString.isEmpty : EncodedString → Bool
  | .raw b => b.isEmpty
  | .json _ d => d = some []

/-- `source` / raw backing bytes of the encoded string (for escape-encoded
strings this is the original escaped source including the quotes). -/
def EncodedString.rawStr : EncodedString → List Nat
  | .raw b => b
  | .json src _ => src

/-! ### JSON escaping (external `encstr::JsonAppender` collaborator)

Modelled from the spec: the `JsonAppender` escape pass of the external
`encstr` crate is not under `src/`; per spec section 4.1 step 5 every
control byte, backslash and double quote is escaped per standard JSON
string escaping, backtick and single quote are left literal. -/

def hexDigit (n : Nat) : Nat := if n < 10 then 48 + n else 87 + n

def jsonEscapeChar (c : Nat) : List Nat :=
  if c = 34 then [92, 34]
  else if c = 92 then [92, 92]
  else if c < 32 then
    if c = 8 then [92, 98]
    else if c = 9 then [92, 116]
    else if c = 10 then [92, 110]
    else if c = 12 then [92, 102]
    else if c = 13 then [92, 114]
    else [92, 117, 48, 48, hexDigit (c / 16), hexDigit (c % 16)]
  else [c]

def jsonEscape (d : List Nat) : List Nat := (d.map jsonEscapeChar).flatten

/-- `EncodedStringExt::format_json` (formatting.rs lines 784-791): a double
quote, the decode routed through the JSON escape appender, a double quote.
Appends to `buf`; `none` models a decode failure. -/
def formatJson (s : EncodedString) (buf : List Nat) : Option (List Nat) :=
  match s.decode with
  | none => none
  | some d => some (buf ++ (34 :: jsonEscape d ++ [34]))

/-! ### `ValueFormatAuto::format` (formatting.rs lines 599-646) -/

/-- `ValueFormatAuto::format`, appending to `buf`.

Mirrors the source: empty strings yield the two-byte token `""`;
otherwise the string is decoded into the buffer (the decoded span is `d`,
so `buf[begin..] = d` and `buf[begin] = d.head`; an empty decode of a
non-empty string would make the `buf[begin]` access panic, modelled as
`none`), its mask is accumulated, and the five-way decision is taken.
`buf.push(q); buf.push(q); buf[begin..].rotate_right(1)` turns the suffix
`d ++ [q, q]` into `q :: d ++ [q]`.  The final branch truncates to `begin`
and re-renders via `ValueFormatDoubleQuoted` (= `format_json`). -/
def valueFormatAuto (s : EncodedString) (buf : List Nat) : Option (List Nat) :=
  if s.isEmpty then some (buf ++ [34, 34])
  else
    match s.decode with
    | none => none
    | some d =>
      match d with
      | [] => none
      | first :: _ =>
        let mask := maskOf d
        if mask = 0 ∧ first ≠ 91 ∧ first ≠ 123 then
          some (buf ++ d)
        else if mask &&& (mDoubleQuote ||| mControl ||| mBackslash) = 0 then
          some (buf ++ (34 :: d ++ [34]))
        else if mask &&& (mSingleQuote ||| mControl ||| mBackslash) = 0 then
          some (buf ++ (39 :: d ++ [39]))
        else if mask &&& (mBacktick ||| mXS) = 0 ∨ mask &&& (mBacktick ||| mXS) = mXS then
          some (buf ++ (96 :: d ++ [96]))
        else
          formatJson s buf

/-! ### `MessageFormatAuto::format` (formatting.rs lines 712-725) -/

/-- `MessageFormatAuto::format`, appending to `buf`: empty messages append
nothing; otherwise the message is decoded raw, and if the decoded span
starts with a double quote or contains an equal sign the span is truncated
and re-rendered fully JSON-escaped in double quotes. -/
def messageFormatAuto (s : EncodedString) (buf : List Nat) : Option (List Nat) :=
  if s.isEmpty then some buf
  else
    match s.decode with
    | none => none
    | some d =>
      if d.head? = some 34 ∨ d.contains 61 then
        formatJson s buf
      else
        some (buf ++ d)

/-! ### Styling sink tokens

The external `StylingPush` sink receives semantic element tags and byte
batches; the embedding records the sequence of sink operations. -/

inductive Element where
  | Time | Level | LevelInner | Logger | LoggerInner | Message | Key | Field
  | String | Number | Boolean | Null | Object | Array | Ellipsis | Caller | CallerInner
deriving DecidableEq, Repr

inductive Tok where
  | push (e : Element)
  | pop
  | bytes (bs : List Nat)
  | space
  | reset
deriving DecidableEq, Repr

/-- Flatten a token list to the plain bytes a colorless theme would emit
(`s.space()` appends one space byte; element push/pop and reset emit
nothing without styling). -/
def toksBytes (ts : List Tok) : List Nat :=
  (ts.map fun t =>
    match t with
    | .bytes bs => bs
    | .space => [32]
    | _ => []).flatten

/-- The configured punctuation byte strings (`settings::Punctuation`). -/
structure Punctuation where
  levelLeftSeparator : List Nat
  levelRightSeparator : List Nat
  loggerNameSeparator : List Nat
  fieldKeyValueSeparator : List Nat
  arraySeparator : List Nat
  hiddenFieldsIndicator : List Nat
  sourceLocationSeparator : List Nat
deriving DecidableEq, Repr

/-! ### Field filter tree (external `filtering` / `IncludeExcludeKeyFilter`)

Modelled from the spec (sections 3 and 4.4): the filtering module is not
under `src/`; each node has a setting and a child map, and composition
lets an explicit child setting override, `Unspecified` never overriding. -/

inductive IncludeExcludeSetting where
  | Unspecified | Include | Exclude
deriving DecidableEq, Repr

/-- Modelled from the spec: `IncludeExcludeSetting::apply` — `Unspecified`
composed with any explicit value yields that value; an explicit value
composed with `Unspecified` stays explicit. -/
def IncludeExcludeSetting.apply (s o : IncludeExcludeSetting) : IncludeExcludeSetting :=
  match o with
  | .Unspecified => s
  | _ => o

/-- Modelled from the spec: `IncludeExcludeKeyFilter` — a node with its own
setting and a map from child field name to child node. -/
inductive KeyFilter where
  | node (setting : IncludeExcludeSetting) (children : List (List Nat × KeyFilter))

def KeyFilter.setting : KeyFilter → IncludeExcludeSetting
  | .node s _ => s

def KeyFilter.getChild : KeyFilter → List Nat → Option KeyFilter
  | .node _ cs, k => cs.lookup k

/-- A node with no configured children is a leaf. -/
def KeyFilter.leaf : KeyFilter → Bool
  | .node _ cs => cs.isEmpty

/-- The filter-resolution prologue of `FieldFormatter::format`
(formatting.rs lines 372-381): returns the refined child filter, the
resolved effective setting, and whether the node is a leaf. -/
def resolveFilter (filter : Option KeyFilter) (setting : IncludeExcludeSetting)
    (key : List Nat) : Option KeyFilter × IncludeExcludeSetting × Bool :=
  match filter with
  | some f =>
    let setting := setting.apply f.setting
    match f.getChild key with
    | some f' => (some f', setting.apply f'.setting, f'.leaf)
    | none => (none, setting, true)
  | none => (none, setting, true)

/-! ### Key prettification and the key-path buffer (`KeyPrefix`, lines 312-350)

The `OptimizedBuf` small-buffer container is modelled by its logical
content, head followed by tail, as one list. -/

/-- `KeyPrettify::key_prettify`: replace every underscore byte with a
hyphen byte. -/
def keyPrettify (key : List Nat) : List Nat :=
  key.map (fun b => if b = 95 then 45 else b)

/-- `KeyPrefix::push`: append `.` (unless the buffer is empty) followed by
the prettified key; return the new buffer and the number of bytes
appended. -/
def keyPathPush (st : List Nat) (key : List Nat) : List Nat × Nat :=
  let st' := (if st.length ≠ 0 then st ++ [46] else st) ++ keyPrettify key
  (st', st'.length - st.length)

/-- `KeyPrefix::pop`: remove exactly the last `n` bytes (clearing when `n`
is at least the current length). -/
def keyPathPop (st : List Nat) (n : Nat) : List Nat :=
  if n ≠ 0 then
    if n ≥ st.length then [] else st.take (st.length - n)
  else st

/-- Claim-side (C7): a sequence of nested `push(key)` calls, collecting
the returned byte counts. -/
def keyPathPushAll (st : List Nat) : List (List Nat) → List Nat × List Nat
  | [] => (st, [])
  | k :: ks =>
    let p := keyPathPush st k
    let q := keyPathPushAll p.1 ks
    (q.1, p.2 :: q.2)

/-- Claim-side (C7): the matching `pop(n)` calls in reverse order (the
innermost push is popped first, the outermost last). -/
def keyPathPopAll (st : List Nat) : List Nat → List Nat
  | [] => st
  | n :: ns => keyPathPop (keyPathPopAll st ns) n

/-! ### Per-record formatting state (lines 285-308) -/

structure FormattingState where
  keyPath : List Nat
  flatten : Bool
  empty : Bool
deriving DecidableEq, Repr

/-- `FormattingState::add_element`: the very first element consumes the
`empty` flag and gets no separator; every later one gets the given
separator tokens. -/
def addElement (fs : FormattingState) (sep : List Tok) : List Tok × FormattingState :=
  if fs.empty then ([], { fs with empty := false }) else (sep, fs)

/-! ### Raw values (`model::RawValue`, external data model)

Objects and arrays carry their raw byte span and the outcome of the lazy
on-demand parse; `none` models a parse failure (whose `unwrap` is a hard
error during rendering).  Fields/elements are part of the mutual inductive
to keep the rendering recursion structural. -/

mutual
inductive RawValue where
  | str (s : EncodedString)
  | num (bytes : List Nat)
  | boolean (b : Bool)
  | null
  | obj (raw : List Nat) (parsed : Option Fields)
  | arr (raw : List Nat) (parsed : Option Elems)

inductive Fields where
  | nil
  | cons (key : List Nat) (value : RawValue) (rest : Fields)

inductive Elems where
  | nil
  | cons (value : RawValue) (rest : Elems)
end

def Fields.length : Fields → Nat
  | .nil => 0
  | .cons _ _ rest => rest.length + 1

/-- Modelled from the spec: `RawValue::raw_str` of the external model
module — the original raw encoded byte span of a value (spec section 6:
with field unescaping off, string values are emitted as their original raw
escaped bytes). -/
def RawValue.rawStr : RawValue → List Nat
  | .str s => s.rawStr
  | .num b => b
  | .boolean true => strBytes ("true")
  | .boolean false => strBytes ("false")
  | .null => strBytes ("null")
  | .obj raw _ => raw
  | .arr raw _ => raw

def isNumericByte (b : Nat) : Bool :=
  (48 ≤ b && b ≤ 57) || b = 45 || b = 43 || b = 46 || b = 101 || b = 69

/-- Modelled from the spec: `RawValue::auto` of the external model module
retypes an already-decoded raw string as a boolean/null/number scalar when
its text is exactly such a literal (spec section 3 data model); it only
ever produces scalar values, never objects or arrays. -/
def RawValue.auto (b : List Nat) : RawValue :=
  if b = strBytes ("true") then .boolean true
  else if b = strBytes ("false") then .boolean false
  else if b = strBytes ("null") then .null
  else if b ≠ [] ∧ b.all isNumericByte then .num b
  else .str (.raw b)

/-- Modelled from the spec: `RawValue::is_empty` of the external model
module, consulted by the hide-empty-fields configuration — emptiness of a
string value is emptiness of its encoded content; other values are treated
as non-empty. -/
def RawValue.isEmptyV : RawValue → Bool
  | .str s => s.isEmpty
  | _ => false

def RawValue.isObj : RawValue → Bool
  | .obj _ _ => true
  | _ => false

/-! ### `WithAutoTrim` (lines 520-538) -/

/-- Rust `u8::is_ascii_whitespace`: space, tab, LF, FF, CR. -/
def isAsciiWhitespaceByte (b : Nat) : Bool :=
  b = 9 || b = 10 || b = 12 || b = 13 || b = 32

/-- `with_auto_trim` applied to a just-appended span: truncate after the
last non-whitespace byte; when every byte is ASCII whitespace there is no
such `rposition` and the span is left unchanged. -/
def withAutoTrim (l : List Nat) : List Nat :=
  if l.all isAsciiWhitespaceByte then l
  else (l.reverse.dropWhile isAsciiWhitespaceByte).reverse

/-! ### Field and value rendering (`FieldFormatter`, lines 354-516) -/

inductive FormattedFieldVariant where
  | normal (flatten : Bool)
  | flattened (n : Nat)

/-- `FieldFormatter::begin` (lines 471-503): in flatten mode an object
field only pushes its key onto the key path; otherwise the gate runs, the
key token is emitted (prefixed with the accumulated dotted path and
disabling flatten when flatten was active), followed by the key/value
separator. -/
def beginField (p : Punctuation) (key : List Nat) (value : RawValue)
    (fs : FormattingState) : FormattedFieldVariant × List Tok × FormattingState :=
  if fs.flatten && value.isObj then
    let (kp, n) := keyPathPush fs.keyPath key
    (.flattened n, ([] : List Tok), { fs with keyPath := kp })
  else
    let variant := FormattedFieldVariant.normal fs.flatten
    let (sep, fs1) := addElement fs [.space]
    let (keyBytes, fs2) :=
      if fs1.flatten then
        ((if fs1.keyPath.length ≠ 0 then fs1.keyPath ++ [46] else []) ++ keyPrettify key,
         { fs1 with flatten := false })
      else (keyPrettify key, fs1)
    (variant,
     sep ++ [.push .Key, .bytes keyBytes, .pop,
             .push .Field, .bytes p.fieldKeyValueSeparator, .pop],
     fs2)

/-- `FieldFormatter::end` (lines 505-515): restore the flatten flag or pop
the pushed key-path bytes. -/
def endField (fs : FormattingState) (v : FormattedFieldVariant) : FormattingState :=
  match v with
  | .normal fl => { fs with flatten := fl }
  | .flattened n => { fs with keyPath := keyPathPop fs.keyPath n }

/-- The formatter configuration surface (`RecordFormatter` fields). -/
structure Cfg where
  unescapeFields : Bool
  flatten : Bool
  hideEmptyFields : Bool
  alwaysShowTime : Bool
  alwaysShowLevel : Bool
  tsWidth : Nat
  fields : KeyFilter
  punctuation : Punctuation

/-- The scalar arms of `FieldFormatter::format_value` (lines 409-426):
strings go through `ValueFormatAuto` under `with_auto_trim`; numbers,
booleans and null are emitted as canonical literal bytes.  Objects/arrays
are not scalars (`none` is unreachable through `RawValue::auto`, which
produces only scalars). -/
def formatScalar (v : RawValue) : Option (List Tok) :=
  match v with
  | .str s => (valueFormatAuto s []).map (fun out => [.push .String, .bytes (withAutoTrim out), .pop])
  | .num b => some [.push .Number, .bytes b, .pop]
  | .boolean true => some [.push .Boolean, .bytes (strBytes ("true")), .pop]
  | .boolean false => some [.push .Boolean, .bytes (strBytes ("false")), .pop]
  | .null => some [.push .Null, .bytes (strBytes ("null")), .pop]
  | _ => none

mutual
/-- `FieldFormatter::format` (lines 363-395): resolve the filter; a field
excluded at a leaf is dropped entirely (no tokens, state untouched,
`false` reported); otherwise begin, render the value (raw encoded bytes
when field unescaping is off), end. -/
def fieldFormat (cfg : Cfg) (key : List Nat) (value : RawValue) (fs : FormattingState)
    (filter : Option KeyFilter) (setting : IncludeExcludeSetting) :
    Option (List Tok × FormattingState × Bool) :=
  let r := resolveFilter filter setting key
  if r.2.1 = .Exclude ∧ r.2.2 = true then some ([], fs, false)
  else
    let bf := beginField cfg.punctuation key value fs
    match (if cfg.unescapeFields then formatValue cfg value bf.2.2 r.1 r.2.1
           else some ([.push .String, .bytes value.rawStr, .pop], bf.2.2)) with
    | none => none
    | some (t2, fs2) => some (bf.2.1 ++ t2, endField fs2 bf.1, true)
termination_by (sizeOf value, 1)

/-- `FieldFormatter::format_value` (lines 397-469): raw strings are
retyped via `RawValue::auto`; scalars render via `formatScalar`; objects
unwrap their lazy parse (hard error on failure), brace-wrap unless flatten
is active, recurse field-by-field and emit one ellipsis if any member was
suppressed; arrays unwrap their lazy parse, bracket-wrap, and recurse
element-by-element with no filter and separators between elements. -/
def formatValue (cfg : Cfg) (value : RawValue) (fs : FormattingState)
    (filter : Option KeyFilter) (setting : IncludeExcludeSetting) :
    Option (List Tok × FormattingState) :=
  match value with
  | .str (.raw b) => (formatScalar (RawValue.auto b)).map (fun t => (t, fs))
  | .str (.json src d) => (formatScalar (.str (.json src d))).map (fun t => (t, fs))
  | .num b => (formatScalar (.num b)).map (fun t => (t, fs))
  | .boolean b => (formatScalar (.boolean b)).map (fun t => (t, fs))
  | .null => (formatScalar .null).map (fun t => (t, fs))
  | .obj _ parsed =>
    match parsed with
    | none => none
    | some flds =>
      let openToks : List Tok := if !fs.flatten then [.bytes [123]] else []
      match objFields cfg flds fs filter setting with
      | none => none
      | some (toks, fs2, hidden) =>
        let ellToks : List Tok :=
          if hidden then [.push .Ellipsis, .bytes cfg.punctuation.hiddenFieldsIndicator, .pop]
          else []
        let closeToks : List Tok :=
          if !fs2.flatten then [.bytes (if flds.length ≠ 0 then [32, 125] else [125])] else []
        some ([Tok.push .Object] ++ openToks ++ toks ++ ellToks ++ closeToks ++ [Tok.pop], fs2)
  | .arr _ parsed =>
    match parsed with
    | none => none
    | some es =>
      match arrElems cfg es true fs with
      | none => none
      | some (toks, fs2) =>
        some ([Tok.push .Array, Tok.bytes [91]] ++ toks ++ [Tok.bytes [93], Tok.pop], fs2)
termination_by (sizeOf value, 0)

/-- The member loop of the Object arm (lines 433-441): render each member
through `fieldFormat`, or-ing the suppression reports. -/
def objFields (cfg : Cfg) (flds : Fields) (fs : FormattingState)
    (filter : Option KeyFilter) (setting : IncludeExcludeSetting) :
    Option (List Tok × FormattingState × Bool) :=
  match flds with
  | .nil => some ([], fs, false)
  | .cons k v rest =>
    match fieldFormat cfg k v fs filter setting with
    | none => none
    | some (t1, fs1, shown) =>
      match objFields cfg rest fs1 filter setting with
      | none => none
      | some (t2, fs2, hidden) => some (t1 ++ t2, fs2, !shown || hidden)
termination_by (sizeOf flds, 2)

/-- The element loop of the Array arm (lines 456-464): separator before
every element but the first, each element formatted as a value with no
filter. -/
def arrElems (cfg : Cfg) (es : Elems) (first : Bool) (fs : FormattingState) :
    Option (List Tok × FormattingState) :=
  match es with
  | .nil => some ([], fs)
  | .cons v rest =>
    let sep : List Tok := if !first then [.bytes cfg.punctuation.arraySeparator] else []
    match formatValue cfg v fs none .Unspecified with
    | none => none
    | some (t1, fs1) =>
      match arrElems cfg rest false fs1 with
      | none => none
      | some (t2, fs2) => some (sep ++ t1 ++ t2, fs2)
termination_by (sizeOf es, 2)
end

/-- Whether a token is the hidden-fields (ellipsis) indicator element. -/
def isEllipsisTok : Tok → Bool
  | .push .Ellipsis => true
  | _ => false

/-- The number of hidden-fields (ellipsis) indicator tokens in a token
list. -/
def countEllipsis (ts : List Tok) : Nat :=
  ts.countP isEllipsisTok

/-! ### Claim-side scope counting (refinement target for C3)

`fieldScopes`/`valueScopes` compute, for each rendered subtree, the number
of scopes (nested objects) in which at least one field was suppressed by
the filter, together with the visibility report of a field; claim C3 says
the rendered output carries exactly one ellipsis indicator per such
scope. -/

mutual
/-- Scopes-with-suppression inside one field, and whether the field itself
is shown (`false` = suppressed at an excluding leaf). -/
def fieldScopes (cfg : Cfg) (key : List Nat) (value : RawValue)
    (filter : Option KeyFilter) (setting : IncludeExcludeSetting) : Nat × Bool :=
  let r := resolveFilter filter setting key
  if r.2.1 = .Exclude ∧ r.2.2 = true then (0, false)
  else ((if cfg.unescapeFields then valueScopes cfg value r.1 r.2.1 else 0), true)
termination_by (sizeOf value, 1)

/-- Scopes-with-suppression inside one value. -/
def valueScopes (cfg : Cfg) (value : RawValue)
    (filter : Option KeyFilter) (setting : IncludeExcludeSetting) : Nat :=
  match value with
  | .str _ => 0
  | .num _ => 0
  | .boolean _ => 0
  | .null => 0
  | .obj _ none => 0
  | .obj _ (some flds) =>
    let p := fieldsScopes cfg flds filter setting
    p.1 + (if p.2 then 1 else 0)
  | .arr _ none => 0
  | .arr _ (some es) => elemsScopes cfg es
termination_by (sizeOf value, 0)

/-- Scopes-with-suppression inside one object scope's member list, and
whether any member of that scope was suppressed. -/
def fieldsScopes (cfg : Cfg) (flds : Fields)
    (filter : Option KeyFilter) (setting : IncludeExcludeSetting) : Nat × Bool :=
  match flds with
  | .nil => (0, false)
  | .cons k v rest =>
    let f := fieldScopes cfg k v filter setting
    let r := fieldsScopes cfg rest filter setting
    (f.1 + r.1, (!f.2) || r.2)
termination_by (sizeOf flds, 2)

/-- Scopes-with-suppression inside an array's elements (arrays are not
filterable, so no suppression arises at the element level itself). -/
def elemsScopes (cfg : Cfg) (es : Elems) : Nat :=
  match es with
  | .nil => 0
  | .cons v rest => valueScopes cfg v none .Unspecified + elemsScopes cfg rest
termination_by (sizeOf es, 2)
end

/-! ### Record orchestration (`RecordFormatter::format_record`, lines 115-236) -/

inductive Level where
  | Debug | Info | Warning | Error
deriving DecidableEq, Repr

/-- The fixed 3-byte level tokens (lines 155-161). -/
def Level.bytes3 : Level → List Nat
  | .Debug => strBytes ("DBG")
  | .Info => strBytes ("INF")
  | .Warning => strBytes ("WRN")
  | .Error => strBytes ("ERR")

inductive Caller where
  | text (t : List Nat)
  | fileLine (file line : List Nat)
deriving DecidableEq, Repr

/-- The bytes the caller element body emits (lines 219-230). -/
def Caller.callerBytes : Caller → List Nat
  | .text t => t
  | .fileLine f l => f ++ (if l.length ≠ 0 then 58 :: l else [])

/-- One immutable record.  The timestamp is modelled by the content bytes
the external reformat/parse/raw fallback chain produces for it. -/
structure Record where
  ts : Option (List Nat)
  level : Option Level
  logger : Option (List Nat)
  message : Option RawValue
  fields : List (List Nat × RawValue)
  caller : Option Caller

/-- Modelled from the spec: `fmtx::aligned_left` of the external
formatting toolbox pads the written content on the right with the fill
byte up to the given width. -/
def alignedLeft (width : Nat) (fill : Nat) (content : List Nat) : List Nat :=
  content ++ List.replicate (width - content.length) fill

/-- Modelled from the spec: `fmtx::centered` of the external formatting
toolbox pads the written content on both sides with the fill byte up to
the given width. -/
def centered (width : Nat) (fill : Nat) (content : List Nat) : List Nat :=
  let pad := width - content.length
  List.replicate (pad / 2) fill ++ content ++ List.replicate (pad - pad / 2) fill

/-- The per-record state constructed at entry of `format_record` (line
116): flatten is active only when both the flatten and field-unescaping
configuration flags are set. -/
def initState (cfg : Cfg) : FormattingState :=
  { keyPath := [], flatten := cfg.flatten && cfg.unescapeFields, empty := true }

/-- The time step (lines 122-150); its add-element closure appends
nothing. -/
def timeStage (cfg : Cfg) (rec : Record) (fs : FormattingState) :
    List Tok × FormattingState :=
  match rec.ts with
  | some content =>
    let (sep, fs1) := addElement fs []
    (sep ++ [.push .Time, .bytes (alignedLeft cfg.tsWidth 32 content), .pop], fs1)
  | none =>
    if cfg.alwaysShowTime then
      let (sep, fs1) := addElement fs []
      (sep ++ [.push .Time, .bytes (centered cfg.tsWidth 45 [45]), .pop], fs1)
    else ([], fs)

/-- The level step (lines 155-172). -/
def levelStage (cfg : Cfg) (rec : Record) (fs : FormattingState) :
    List Tok × FormattingState :=
  let lvl : Option (List Nat) :=
    match rec.level.map Level.bytes3 with
    | some b => some b
    | none => if cfg.alwaysShowLevel then some (strBytes ("(?)")) else none
  match lvl with
  | some b =>
    let (sep, fs1) := addElement fs [.space]
    (sep ++ [.push .Level, .bytes cfg.punctuation.levelLeftSeparator,
             .push .LevelInner, .bytes b, .pop,
             .bytes cfg.punctuation.levelRightSeparator, .pop], fs1)
  | none => ([], fs)

/-- The logger step (lines 177-185). -/
def loggerStage (cfg : Cfg) (rec : Record) (fs : FormattingState) :
    List Tok × FormattingState :=
  match rec.logger with
  | some lg =>
    let (sep, fs1) := addElement fs [.bytes [32]]
    (sep ++ [.push .Logger, .push .LoggerInner, .bytes lg, .pop,
             .bytes cfg.punctuation.loggerNameSeparator, .pop], fs1)
  | none => ([], fs)

/-- The message step (`format_message`, lines 189-193 and 252-268): a
non-empty string message is gated (resetting styling and adding a space
when not first) and rendered through `MessageFormatAuto` under
`with_auto_trim`; an empty string message emits nothing; a non-string
message is rendered as a field under the key `msg` (its suppression report
is discarded); an absent message resets styling. -/
def messageStage (cfg : Cfg) (rec : Record) (fs : FormattingState) :
    Option (List Tok × FormattingState) :=
  match rec.message with
  | some (.str s) =>
    if s.isEmpty then some ([], fs)
    else
      match messageFormatAuto s [] with
      | none => none
      | some out =>
        let (sep, fs1) := addElement fs [.reset, .space]
        some (sep ++ [.push .Message, .bytes (withAutoTrim out), .pop], fs1)
  | some v =>
    match fieldFormat cfg (strBytes ("msg")) v fs (some cfg.fields) .Unspecified with
    | none => none
    | some (t, fs1, _) => some (t, fs1)
  | none => some ([.reset], fs)

/-- The fields loop (lines 197-202): empty values are skipped when
hide-empty-fields is configured; each surviving field renders under the
configured filter; suppression reports are or-ed. -/
def recordFieldsLoop (cfg : Cfg) (flds : List (List Nat × RawValue))
    (fs : FormattingState) : Option (List Tok × FormattingState × Bool) :=
  match flds with
  | [] => some ([], fs, false)
  | (k, v) :: rest =>
    if !cfg.hideEmptyFields || !v.isEmptyV then
      match fieldFormat cfg k v fs (some cfg.fields) .Unspecified with
      | none => none
      | some (t1, fs1, shown) =>
        match recordFieldsLoop cfg rest fs1 with
        | none => none
        | some (t2, fs2, hidden) => some (t1 ++ t2, fs2, !shown || hidden)
    else recordFieldsLoop cfg rest fs

/-- The caller step (lines 211-234): always preceded by a space byte and
the source-location separator, with no add-element gate. -/
def callerStage (cfg : Cfg) (rec : Record) : List Tok :=
  match rec.caller with
  | some c => [.push .Caller, .bytes (32 :: cfg.punctuation.sourceLocationSeparator),
               .push .CallerInner, .bytes c.callerBytes, .pop, .pop]
  | none => []

/-- `RecordFormatter::format_record` (lines 115-236): time, level, logger,
message, fields (followed by one hidden-fields indicator if any field was
suppressed), caller. -/
def formatRecord (cfg : Cfg) (rec : Record) : Option (List Tok) :=
  let fs := initState cfg
  let (t1, fs) := timeStage cfg rec fs
  let (t2, fs) := levelStage cfg rec fs
  let (t3, fs) := loggerStage cfg rec fs
  match messageStage cfg rec fs with
  | none => none
  | some (t4, fs) =>
    match recordFieldsLoop cfg rec.fields fs with
    | none => none
    | some (t5, _, hidden) =>
      let t6 : List Tok :=
        if hidden then [.push .Ellipsis, .bytes cfg.punctuation.hiddenFieldsIndicator, .pop]
        else []
      some (t1 ++ t2 ++ t3 ++ t4 ++ t5 ++ t6 ++ callerStage cfg rec)

/-! ### Claim-side gated layout (refinement target for C8)

The amended C8 describes `format_record` output as a fixed-order list of
optional gated segments — time, level, logger, string message — joined so
that the first present segment gets no leading separator and every later
one exactly its own separator, followed by the ungated parts: the styling
reset for an absent message, the non-string message rendered through the
field path, the fields, one optional hidden-fields indicator, and the
caller (which always carries its own leading space and separator). -/

/-- Join segments `(separator, body)` in order: no separator before the
first present segment, exactly one before each later one. -/
def gatedJoin : Bool → List (List Tok × List Tok) → List Tok
  | _, [] => []
  | e, (sep, body) :: rest => (if e then [] else sep) ++ body ++ gatedJoin false rest

/-- Run one optional gated segment against the formatting state (the
add-element protocol). -/
def stepSeg (fs : FormattingState) : Option (List Tok × List Tok) →
    List Tok × FormattingState
  | none => ([], fs)
  | some sb => ((addElement fs sb.1).1 ++ sb.2, (addElement fs sb.1).2)

/-- The optional time segment: no separator bytes of its own. -/
def timeSegment (cfg : Cfg) (rec : Record) : Option (List Tok × List Tok) :=
  match rec.ts with
  | some content =>
    some ([], [.push .Time, .bytes (alignedLeft cfg.tsWidth 32 content), .pop])
  | none =>
    if cfg.alwaysShowTime then
      some ([], [.push .Time, .bytes (centered cfg.tsWidth 45 [45]), .pop])
    else none

/-- The optional level segment: separated by a space. -/
def levelSegment (cfg : Cfg) (rec : Record) : Option (List Tok × List Tok) :=
  match rec.level.map Level.bytes3 with
  | some b =>
    some ([.space],
      [.push .Level, .bytes cfg.punctuation.levelLeftSeparator,
       .push .LevelInner, .bytes b, .pop,
       .bytes cfg.punctuation.levelRightSeparator, .pop])
  | none =>
    if cfg.alwaysShowLevel then
      some ([.space],
        [.push .Level, .bytes cfg.punctuation.levelLeftSeparator,
         .push .LevelInner, .bytes (strBytes ("(?)")), .pop,
         .bytes cfg.punctuation.levelRightSeparator, .pop])
    else none

/-- The optional logger segment: separated by a space byte. -/
def loggerSegment (cfg : Cfg) (rec : Record) : Option (List Tok × List Tok) :=
  match rec.logger with
  | some lg =>
    some ([.bytes [32]],
      [.push .Logger, .push .LoggerInner, .bytes lg, .pop,
       .bytes cfg.punctuation.loggerNameSeparator, .pop])
  | none => none

/-- The optional gated string-message segment (separated by a styling
reset and a space); the outer `none` is the fatal decode failure. -/
def msgStringSegment (_cfg : Cfg) (rec : Record) :
    Option (Option (List Tok × List Tok)) :=
  match rec.message with
  | some (.str s) =>
    if s.isEmpty then some none
    else (messageFormatAuto s []).map (fun out =>
      some ([.reset, .space], [.push .Message, .bytes (withAutoTrim out), .pop]))
  | _ => some none

/-- Claim-side (C8): the record output as gated segments in the fixed
order time, level, logger, message, followed by the ungated reset (absent
message), non-string-message field, fields, hidden-fields indicator and
caller. -/
def recordLayout (cfg : Cfg) (rec : Record) : Option (List Tok) :=
  match msgStringSegment cfg rec with
  | none => none
  | some msgSeg =>
    let segs := (timeSegment cfg rec).toList ++ (levelSegment cfg rec).toList
        ++ (loggerSegment cfg rec).toList ++ msgSeg.toList
    let fsAfter : FormattingState :=
      { keyPath := [], flatten := cfg.flatten && cfg.unescapeFields, empty := segs.isEmpty }
    let resetToks : List Tok :=
      match rec.message with
      | none => [.reset]
      | _ => []
    match ((match rec.message with
            | some (.str _) => some (([] : List Tok), fsAfter)
            | some v =>
              (fieldFormat cfg (strBytes ("msg")) v fsAfter (some cfg.fields) .Unspecified).map
                (fun r => (r.1, r.2.1))
            | none => some ([], fsAfter)) : Option (List Tok × FormattingState)) with
    | none => none
    | some (msgFieldToks, fs1) =>
      match recordFieldsLoop cfg rec.fields fs1 with
      | none => none
      | some (t5, _, hidden) =>
        some (gatedJoin true segs ++ resetToks ++ msgFieldToks ++ t5
              ++ (if hidden then
                    [.push .Ellipsis, .bytes cfg.punctuation.hiddenFieldsIndicator, .pop]
                  else [])
              ++ callerStage cfg rec)

/-- Claim-side (C3): scopes-with-suppression over the record's top-level
field list, mirroring the hide-empty skip, and whether any top-level field
was suppressed. -/
def listFieldsScopes (cfg : Cfg) : List (List Nat × RawValue) → Nat × Bool
  | [] => (0, false)
  | (k, v) :: rest =>
    if !cfg.hideEmptyFields || !v.isEmptyV then
      let f := fieldScopes cfg k v (some cfg.fields) .Unspecified
      let r := listFieldsScopes cfg rest
      (f.1 + r.1, (!f.2) || r.2)
    else listFieldsScopes cfg rest

/-- Claim-side (C3): the total number of scopes with at least one
suppressed field in a record: the nested scopes inside a non-string
message rendered through the field path (its own suppression report is
discarded by `format_message`), the nested scopes inside the top-level
fields, plus one for the record's own top-level scope if any top-level
field was suppressed. -/
def recordScopes (cfg : Cfg) (rec : Record) : Nat :=
  let msgCount :=
    match rec.message with
    | some (.str _) => 0
    | some v => (fieldScopes cfg (strBytes ("msg")) v (some cfg.fields) .Unspecified).1
    | none => 0
  let fp := listFieldsScopes cfg rec.fields
  msgCount + (fp.1 + (if fp.2 then 1 else 0))

/-! ### Claim-side rendering choice (refinement target for C1)

`chooseRendering` is written from the words of claim C1, not from the
source; the C1 theorem relates `valueFormatAuto` (the source embedding) to
it.  Being a total function on `(mask, first byte)`, it establishes that
the decision is deterministic and total. -/

inductive Rendering where
  | bare
  | doubleQuoted
  | singleQuoted
  | backtickQuoted
  | escaped
deriving DecidableEq, Repr

/-- The five-way priority choice exactly as claim C1 words it:
(1) empty mask and first byte not `[`/`{` → bare; (2) no DoubleQuote,
Control, Backslash → double quotes; (3) no SingleQuote, Control, Backslash
→ single quotes; (4) mask restricted to Backtick-or-Control-or-
ExtendedSpace empty or exactly Control-plus-ExtendedSpace → backticks;
(5) otherwise fully JSON-escaped in double quotes. -/
def chooseRendering (mask first : Nat) : Rendering :=
  if mask = 0 ∧ first ≠ 91 ∧ first ≠ 123 then .bare
  else if mask &&& (mDoubleQuote ||| mControl ||| mBackslash) = 0 then .doubleQuoted
  else if mask &&& (mSingleQuote ||| mControl ||| mBackslash) = 0 then .singleQuoted
  else if mask &&& (mBacktick ||| mControl ||| mExtendedSpace) = 0
      ∨ mask &&& (mBacktick ||| mControl ||| mExtendedSpace) = mControl ||| mExtendedSpace then
    .backtickQuoted
  else .escaped

/-- The bytes each rendering produces from the decoded bytes `d`. -/
def applyRendering (r : Rendering) (d : List Nat) : List Nat :=
  match r with
  | .bare => d
  | .doubleQuoted => 34 :: d ++ [34]
  | .singleQuoted => 39 :: d ++ [39]
  | .backtickQuoted => 96 :: d ++ [96]
  | .escaped => 34 :: jsonEscape d ++ [34]

/-! ### Concrete fixtures for witnesses and counterexamples

The punctuation mirrors the test defaults of the repository: `|`/`|`
around the level, `:` after the logger, `=` between key and value, `,`
between array elements, ` ...` as hidden-fields indicator, `@ ` before the
caller. -/

def punct0 : Punctuation :=
  { levelLeftSeparator := strBytes ("|"), levelRightSeparator := strBytes ("|"),
    loggerNameSeparator := strBytes (":"), fieldKeyValueSeparator := strBytes ("="),
    arraySeparator := strBytes (","), hiddenFieldsIndicator := strBytes (" ..."),
    sourceLocationSeparator := strBytes ("@ ") }

def filter0 : KeyFilter := .node .Unspecified []

def cfg0 : Cfg :=
  { unescapeFields := true, flatten := false, hideEmptyFields := false,
    alwaysShowTime := false, alwaysShowLevel := false, tsWidth := 21,
    fields := filter0, punctuation := punct0 }

def cfgRaw : Cfg := { cfg0 with unescapeFields := false }

/-- The record used in the C9 witness: a single field whose object value
has a failed lazy parse. -/
def recBadObj : Record :=
  { ts := none, level := none, logger := none, message := none,
    fields := [(strBytes ("k"), .obj [] none)], caller := none }

/-- The record used in the C8 counterexample: nothing but a caller. -/
def recCallerOnly : Record :=
  { ts := none, level := none, logger := none, message := none,
    fields := [], caller := some (.text (strBytes ("tc"))) }

/-- The nested object value of claim C2: the object
`a -> (b -> 1, c -> 2)` behind a lazily parsed span. -/
def objKABC : RawValue :=
  .obj [123, 125] (some (.cons (strBytes ("a"))
    (.obj [123, 125] (some (.cons (strBytes ("b")) (.num (strBytes ("1")))
      (.cons (strBytes ("c")) (.num (strBytes ("2"))) .nil)))) .nil))

/-- C1: for every non-empty string value (with a successful decode to
`first :: rest`), `ValueFormatAuto::format` appends exactly the rendering
selected by the claim's five-way priority over the bitwise-OR mask of
per-byte categories of the decoded bytes.  `chooseRendering` is a total
function of the mask and the first byte, so the decision is deterministic
and total: every mask maps to exactly one rendering. -/
theorem claim_C1_quote_selection (s : EncodedString) (buf : List Nat)
    (first : Nat) (rest : List Nat)
    (hne : s.isEmpty = false) (hdec : s.decode = some (first :: rest)) :
    valueFormatAuto s buf =
      some (buf ++ applyRendering (chooseRendering (maskOf (first :: rest)) first) (first :: rest)) := by
  have e4 : mBacktick ||| mXS = 81 := by decide
  have e4' : mBacktick ||| mControl ||| mExtendedSpace = 81 := by decide
  have e5 : mXS = 65 := by decide
  have e5' : mControl ||| mExtendedSpace = 65 := by decide
  simp only [valueFormatAuto, hne, hdec, formatJson, chooseRendering,
    Bool.false_eq_true, if_false]
  simp only [e4, e4']
  simp only [e5, e5']
  split_ifs <;> simp [applyRendering]

/-- Witness for C1 at the concrete raw string "hi you" (decodes to itself,
mask = Space, first byte `h`): double-quoted rendering. -/
theorem claim_C1_quote_selection_witness :
    valueFormatAuto (.raw [104, 105, 32, 121, 111, 117]) [] =
      some ([] ++ applyRendering
        (chooseRendering (maskOf (104 :: [105, 32, 121, 111, 117])) 104)
        (104 :: [105, 32, 121, 111, 117])) :=
  claim_C1_quote_selection (.raw [104, 105, 32, 121, 111, 117]) []
    104 [105, 32, 121, 111, 117] (by decide) (by decide)

/-- C4: for every non-empty string message (with a successful decode to
`d`), `MessageFormatAuto::format` applies exactly the two-way decision: if
the decoded bytes start with a double-quote byte or contain an `=` byte,
the decode is discarded and the message re-rendered fully JSON-escaped in
double quotes; otherwise the decoded bytes are appended bare. -/
theorem claim_C4_message_two_way (s : EncodedString) (buf d : List Nat)
    (hne : s.isEmpty = false) (hdec : s.decode = some d) :
    messageFormatAuto s buf =
      some (buf ++ (if d.head? = some 34 ∨ d.contains 61
                    then 34 :: jsonEscape d ++ [34]
                    else d)) := by
  simp only [messageFormatAuto, hne, hdec, formatJson, Bool.false_eq_true, if_false]
  split_ifs <;> simp

/-- Witness for C4 at the concrete raw message `a=b` (contains `=`):
fully JSON-escaped double-quoted rendering. -/
theorem claim_C4_message_two_way_witness :
    messageFormatAuto (.raw [97, 61, 98]) [] =
      some ([] ++ (if [97, 61, 98].head? = some 34 ∨ [97, 61, 98].contains 61
                   then 34 :: jsonEscape [97, 61, 98] ++ [34]
                   else [97, 61, 98])) :=
  claim_C4_message_two_way (.raw [97, 61, 98]) [] [97, 61, 98] (by decide) (by decide)

/-- C2: rendering the field `k = (a -> (b -> 1, c -> 2))` with flatten
active yields exactly the bytes `k.a.b=1 k.a.c=2` — the dot-joined keys
with full dotted ancestor prefixes and no brace, comma, or brace-spacing
bytes — and with flatten inactive exactly the nested brace form
`k={ a={ b=1 c=2 } }` (`0x7b`/`0x7d` written as byte literals), each
non-empty object wrapped in an opening brace and a space-close-brace. -/
theorem claim_C2_flatten_round_trip :
    ((fieldFormat cfg0 (strBytes ("k")) objKABC
        { keyPath := [], flatten := true, empty := true }
        (some cfg0.fields) .Unspecified).map (fun r => toksBytes r.1)
      = some (strBytes ("k.a.b=1 k.a.c=2")))
    ∧ ((fieldFormat cfg0 (strBytes ("k")) objKABC
        { keyPath := [], flatten := false, empty := true }
        (some cfg0.fields) .Unspecified).map (fun r => toksBytes r.1)
      = some (strBytes ("k=") ++ [123] ++ strBytes (" a=") ++ [123]
          ++ strBytes (" b=1 c=2") ++ [32, 125, 32, 125])) := by
  constructor <;>
    simp [fieldFormat, formatValue, objFields, arrElems, formatScalar, resolveFilter,
      beginField, endField, addElement, keyPrettify, keyPathPush, keyPathPop,
      RawValue.auto, RawValue.isObj, valueFormatAuto, withAutoTrim, toksBytes, strBytes,
      cfg0, punct0, filter0, objKABC, KeyFilter.getChild, KeyFilter.setting, KeyFilter.leaf,
      IncludeExcludeSetting.apply, Fields.length, maskOf, charGroup, CHAR_GROUPS,
      mControl, mDoubleQuote, mSingleQuote, mBackslash, mBacktick, mSpace, mExtendedSpace,
      mEqualSign, mXS, CT, DQ, SQ, BS, BT, SP, EQS, XS, NG, EncodedString.decode,
      EncodedString.isEmpty, isNumericByte, isAsciiWhitespaceByte, formatJson, jsonEscape,
      jsonEscapeChar, hexDigit, List.lookup]

/-- C5 counterexample: with field unescaping disabled and a raw (already
decoded) empty string value, the rendered value token is empty — the
field renders as the bytes `k=` and not as `k=""` — so the claim's "for
every combination of the field-unescaping and flatten configuration flags
and for both raw and escape-encoded empty strings" is false. -/
theorem claim_C5_counterexample :
    ((fieldFormat cfgRaw (strBytes ("k")) (.str (.raw []))
        { keyPath := [], flatten := false, empty := true }
        none .Unspecified).map (fun r => toksBytes r.1) = some (strBytes ("k=")))
    ∧ ((fieldFormat cfgRaw (strBytes ("k")) (.str (.raw []))
        { keyPath := [], flatten := false, empty := true }
        none .Unspecified).map (fun r => toksBytes r.1)
      ≠ some (strBytes ("k=") ++ [34, 34])) := by
  constructor <;>
    simp [fieldFormat, formatValue, formatScalar, resolveFilter, beginField, endField,
      addElement, keyPrettify, RawValue.auto, RawValue.isObj, RawValue.rawStr,
      EncodedString.rawStr, valueFormatAuto, withAutoTrim, toksBytes, strBytes,
      cfgRaw, cfg0, punct0]

/-- C5 amended: with field unescaping enabled, every empty string value —
raw or escape-encoded, under any flatten setting and any non-excluding
filter resolution — renders its value token as exactly the two bytes
`""`; with unescaping disabled the raw encoded bytes are emitted instead
(which coincide with `""` only for escape-encoded empty strings). -/
theorem claim_C5_empty_string (cfg : Cfg) (key : List Nat) (fs : FormattingState)
    (filter : Option KeyFilter) (setting : IncludeExcludeSetting) (src : List Nat)
    (hu : cfg.unescapeFields = true)
    (hx : ¬((resolveFilter filter setting key).2.1 = .Exclude
            ∧ (resolveFilter filter setting key).2.2 = true)) :
    (fieldFormat cfg key (.str (.raw [])) fs filter setting
      = some ((beginField cfg.punctuation key (.str (.raw [])) fs).2.1
            ++ [.push .String, .bytes [34, 34], .pop],
          endField (beginField cfg.punctuation key (.str (.raw [])) fs).2.2
            (beginField cfg.punctuation key (.str (.raw [])) fs).1, true))
    ∧ (fieldFormat cfg key (.str (.json src (some []))) fs filter setting
      = some ((beginField cfg.punctuation key (.str (.json src (some []))) fs).2.1
            ++ [.push .String, .bytes [34, 34], .pop],
          endField (beginField cfg.punctuation key (.str (.json src (some []))) fs).2.2
            (beginField cfg.punctuation key (.str (.json src (some []))) fs).1, true)) := by
  constructor <;>
    simp [fieldFormat, formatValue, formatScalar, hx, hu, RawValue.auto, strBytes,
      isNumericByte, valueFormatAuto, EncodedString.isEmpty, EncodedString.decode,
      withAutoTrim, isAsciiWhitespaceByte]

/-- Witness for C5 amended at the filter-free single-field configuration:
for the raw empty string the whole field renders as the token sequence
`key, =, ""`. -/
theorem claim_C5_empty_string_witness :
    fieldFormat cfg0 (strBytes ("k")) (.str (.raw []))
        { keyPath := [], flatten := false, empty := true } none .Unspecified
      = some ([.push .Key, .bytes (strBytes ("k")), .pop,
               .push .Field, .bytes (strBytes ("=")), .pop,
               .push .String, .bytes [34, 34], .pop],
          { keyPath := [], flatten := false, empty := false }, true) := by
  have h := (claim_C5_empty_string cfg0 (strBytes ("k"))
    { keyPath := [], flatten := false, empty := true } none .Unspecified []
    (by rfl) (by decide)).1
  simpa [beginField, endField, addElement, keyPrettify, RawValue.isObj, strBytes,
    cfg0, punct0] using h

set_option maxRecDepth 16000 in
/-- C6 counterexample: a string element of an array is rendered through
the same `ValueFormatAuto` as a top-level scalar, so the bracket exception
and the empty-string check are applied on recursive calls too: the array
with elements `[x]` and the empty string renders as the bytes
`["[x]",""]` — the element `[x]` (empty mask, leading `[`) is
double-quoted rather than bare, and the empty element takes the
empty-string special case — contradicting the claim that both special
cases are skipped for array/object elements. -/
theorem claim_C6_counterexample :
    ((formatValue cfg0
        (.arr [91, 93] (some (.cons (.str (.json [113] (some (strBytes ("[x]")))))
          (.cons (.str (.json [122] (some []))) .nil))))
        { keyPath := [], flatten := false, empty := false }
        none .Unspecified).map (fun r => toksBytes r.1)
      = some (strBytes ("[\"[x]\",\"\"]")))
    ∧ ((formatValue cfg0
        (.arr [91, 93] (some (.cons (.str (.json [113] (some (strBytes ("[x]")))))
          (.cons (.str (.json [122] (some []))) .nil))))
        { keyPath := [], flatten := false, empty := false }
        none .Unspecified).map (fun r => toksBytes r.1)
      ≠ some (strBytes ("[[x],\"\"]"))) := by
  constructor <;>
    simp [formatValue, arrElems, formatScalar, valueFormatAuto, withAutoTrim, toksBytes,
      strBytes, cfg0, punct0, EncodedString.decode, EncodedString.isEmpty, maskOf,
      charGroup, CHAR_GROUPS, mControl, mDoubleQuote, mSingleQuote, mBackslash, mBacktick,
      mSpace, mExtendedSpace, mEqualSign, mXS, CT, DQ, SQ, BS, BT, SP, EQS, XS, NG,
      isAsciiWhitespaceByte, formatJson, jsonEscape, jsonEscapeChar, hexDigit]

/-- C6 amended: recursive calls share the top-level quote-selection code:
a string element of an array renders as exactly the top-level scalar
rendering pipeline (`ValueFormatAuto` under `with_auto_trim`), including
step 1's empty check and step 4's bracket exception. -/
theorem claim_C6_nested_same_pipeline (cfg : Cfg) (fs : FormattingState)
    (raw src : List Nat) (dd : Option (List Nat)) (out : List Nat)
    (h : valueFormatAuto (.json src dd) [] = some out) :
    formatValue cfg (.arr raw (some (.cons (.str (.json src dd)) .nil))) fs none .Unspecified
      = some ([.push .Array, .bytes [91], .push .String, .bytes (withAutoTrim out), .pop,
               .bytes [93], .pop], fs) := by
  simp [formatValue, arrElems, formatScalar, h]

/-- Helper: with field unescaping on, an object value whose lazy parse
failed renders to a fatal error whenever the field is not dropped by the
filter. -/
theorem fieldFormat_objParseFail (cfg : Cfg) (key : List Nat) (fs : FormattingState)
    (filter : Option KeyFilter) (setting : IncludeExcludeSetting) (raw : List Nat)
    (hu : cfg.unescapeFields = true)
    (hx : ¬((resolveFilter filter setting key).2.1 = .Exclude
            ∧ (resolveFilter filter setting key).2.2 = true)) :
    fieldFormat cfg key (.obj raw none) fs filter setting = none := by
  simp [fieldFormat, formatValue, hx, hu]

/-- Helper: same for an array value whose lazy parse failed. -/
theorem fieldFormat_arrParseFail (cfg : Cfg) (key : List Nat) (fs : FormattingState)
    (filter : Option KeyFilter) (setting : IncludeExcludeSetting) (raw : List Nat)
    (hu : cfg.unescapeFields = true)
    (hx : ¬((resolveFilter filter setting key).2.1 = .Exclude
            ∧ (resolveFilter filter setting key).2.2 = true)) :
    fieldFormat cfg key (.arr raw none) fs filter setting = none := by
  simp [fieldFormat, formatValue, hx, hu]

/-- C9: with field unescaping enabled, a nested Object or Array value
whose lazy byte span fails to parse makes the rendering a hard error
(`parse().unwrap()`): the field renders to a fatal error, and the
enclosing `format_record` call is a fatal error — there is no raw-bytes
fallback at this layer. -/
theorem claim_C9_parse_failure :
    (∀ (cfg : Cfg) (key : List Nat) (fs : FormattingState) (filter : Option KeyFilter)
        (setting : IncludeExcludeSetting) (raw : List Nat),
      cfg.unescapeFields = true →
      ¬((resolveFilter filter setting key).2.1 = .Exclude
        ∧ (resolveFilter filter setting key).2.2 = true) →
      fieldFormat cfg key (.obj raw none) fs filter setting = none
      ∧ fieldFormat cfg key (.arr raw none) fs filter setting = none)
    ∧ (∀ (cfg : Cfg) (key raw : List Nat) (rec : Record),
      cfg.unescapeFields = true →
      rec.message = none →
      rec.fields = [(key, .obj raw none)] →
      ¬((resolveFilter (some cfg.fields) .Unspecified key).2.1 = .Exclude
        ∧ (resolveFilter (some cfg.fields) .Unspecified key).2.2 = true) →
      formatRecord cfg rec = none) := by
  constructor
  · intro cfg key fs filter setting raw hu hx
    exact ⟨fieldFormat_objParseFail cfg key fs filter setting raw hu hx,
           fieldFormat_arrParseFail cfg key fs filter setting raw hu hx⟩
  · intro cfg key raw rec hu hm hf hx
    simp [formatRecord, messageStage, hm, hf, recordFieldsLoop, RawValue.isEmptyV,
      fieldFormat_objParseFail _ _ _ _ _ _ hu hx]

/-- Witness for C9: concrete field-level and record-level fatal errors at
an object whose lazy parse failed. -/
theorem claim_C9_parse_failure_witness :
    (fieldFormat cfg0 (strBytes ("k")) (.obj [] none)
        { keyPath := [], flatten := false, empty := true } none .Unspecified = none)
    ∧ formatRecord cfg0 recBadObj = none :=
  ⟨(claim_C9_parse_failure.1 cfg0 (strBytes ("k"))
      { keyPath := [], flatten := false, empty := true } none .Unspecified []
      (by rfl) (by decide)).1,
   claim_C9_parse_failure.2 cfg0 (strBytes ("k")) [] recBadObj
      (by rfl) (by rfl) (by rfl) (by decide)⟩

/-- C10: when field unescaping is disabled, the per-record formatting
state initializes its flatten flag to `flatten AND unescape_fields`, hence
to false; and every non-suppressed field — of any value type, objects and
arrays included — is emitted as its key token followed by the key/value
separator and its original raw encoded bytes, with no quote selection, no
recursion into members, no dotted-key flattening, and no key-path
mutation. -/
theorem claim_C10_no_unescape_raw :
    (∀ cfg : Cfg, cfg.unescapeFields = false → (initState cfg).flatten = false)
    ∧ (∀ (cfg : Cfg) (key : List Nat) (v : RawValue) (fs : FormattingState)
        (filter : Option KeyFilter) (setting : IncludeExcludeSetting),
      cfg.unescapeFields = false → fs.flatten = false →
      ¬((resolveFilter filter setting key).2.1 = .Exclude
        ∧ (resolveFilter filter setting key).2.2 = true) →
      fieldFormat cfg key v fs filter setting =
        some ((if fs.empty then ([] : List Tok) else [.space])
              ++ [.push .Key, .bytes (keyPrettify key), .pop,
                  .push .Field, .bytes cfg.punctuation.fieldKeyValueSeparator, .pop,
                  .push .String, .bytes v.rawStr, .pop],
            { keyPath := fs.keyPath, flatten := false, empty := false }, true)) := by
  constructor
  · intro cfg hu
    simp [initState, hu]
  · intro cfg key v fs filter setting hu hf hx
    by_cases he : fs.empty <;>
      simp [fieldFormat, beginField, endField, addElement, hx, hu, hf, he]

/-- Witness for C10 at a boolean field with unescaping disabled: the raw
literal bytes `true` are emitted after the key token. -/
theorem claim_C10_no_unescape_raw_witness :
    fieldFormat cfgRaw (strBytes ("k")) (.boolean true)
        { keyPath := [], flatten := false, empty := true } none .Unspecified =
      some ((if ({ keyPath := [], flatten := false, empty := true } : FormattingState).empty
             then ([] : List Tok) else [.space])
            ++ [.push .Key, .bytes (keyPrettify (strBytes ("k"))), .pop,
                .push .Field, .bytes cfgRaw.punctuation.fieldKeyValueSeparator, .pop,
                .push .String, .bytes (RawValue.boolean true).rawStr, .pop],
          { keyPath := [], flatten := false, empty := false }, true) :=
  claim_C10_no_unescape_raw.2 cfgRaw (strBytes ("k")) (.boolean true)
    { keyPath := [], flatten := false, empty := true } none .Unspecified
    (by rfl) (by rfl) (by decide)

/-- Helper: `pop` with the byte count returned by `push` restores the
key-path buffer exactly. -/
theorem keyPathPop_keyPathPush (st key : List Nat) :
    keyPathPop (keyPathPush st key).1 (keyPathPush st key).2 = st := by
  rcases st with _ | ⟨a, tl⟩
  · rcases hk : keyPrettify key with _ | ⟨b, kb⟩ <;>
      simp [keyPathPush, keyPathPop, hk]
  · have happ : keyPathPush (a :: tl) key
        = ((a :: tl) ++ 46 :: keyPrettify key, (keyPrettify key).length + 1) := by
      simp [keyPathPush]
    rw [happ]
    simp only [keyPathPop]
    have hL : ((a :: tl) ++ 46 :: keyPrettify key).length
        = (a :: tl).length + ((keyPrettify key).length + 1) := by
      simp
      omega
    rw [if_pos (by omega), if_neg (by rw [hL]; simp), hL]
    have hT : (a :: tl).length + ((keyPrettify key).length + 1)
        - ((keyPrettify key).length + 1) = (a :: tl).length := by omega
    rw [hT, List.take_left]

/-- Helper (C7 part one): any sequence of nested pushes followed by the
matching pops in reverse order restores the buffer content exactly. -/
theorem keyPathPopAll_keyPathPushAll (ks : List (List Nat)) (st : List Nat) :
    keyPathPopAll (keyPathPushAll st ks).1 (keyPathPushAll st ks).2 = st := by
  induction ks generalizing st with
  | nil => simp [keyPathPushAll, keyPathPopAll]
  | cons k ks ih =>
    simp only [keyPathPushAll, keyPathPopAll, ih (keyPathPush st k).1]
    exact keyPathPop_keyPathPush st k

/-- Helper: whatever rendering happens between `begin` and `end`, if it
preserves the flatten flag and key path of the state `begin` produced,
then `end` restores the flatten flag and key path that existed before
`begin`. -/
theorem beginField_endField_restore (p : Punctuation) (key : List Nat)
    (value : RawValue) (fs fs2 : FormattingState)
    (hfl : fs2.flatten = (beginField p key value fs).2.2.flatten)
    (hkp : fs2.keyPath = (beginField p key value fs).2.2.keyPath) :
    (endField fs2 (beginField p key value fs).1).flatten = fs.flatten
    ∧ (endField fs2 (beginField p key value fs).1).keyPath = fs.keyPath := by
  by_cases hb : (fs.flatten && value.isObj) = true
  · have hb' : beginField p key value fs
        = (.flattened (keyPathPush fs.keyPath key).2, [],
           { fs with keyPath := (keyPathPush fs.keyPath key).1 }) := by
      simp [beginField, hb]
    rw [hb'] at hfl hkp ⊢
    refine ⟨by simpa [endField] using hfl, ?_⟩
    have hkp' : fs2.keyPath = (keyPathPush fs.keyPath key).1 := hkp
    show keyPathPop fs2.keyPath (keyPathPush fs.keyPath key).2 = fs.keyPath
    rw [hkp']
    exact keyPathPop_keyPathPush fs.keyPath key
  · by_cases he : fs.empty <;> by_cases hf : fs.flatten <;>
      simp_all [beginField, endField, addElement]

mutual
/-- Helper (C7 part two): every successful `FieldFormatter::format` call
— on every exit path, including the suppressed one — returns a state with
the exact flatten flag and key-path buffer it was given. -/
theorem fieldFormat_state (cfg : Cfg) (key : List Nat) (value : RawValue)
    (fs : FormattingState) (filter : Option KeyFilter) (setting : IncludeExcludeSetting)
    (out : List Tok × FormattingState × Bool)
    (h : fieldFormat cfg key value fs filter setting = some out) :
    out.2.1.flatten = fs.flatten ∧ out.2.1.keyPath = fs.keyPath := by
  simp only [fieldFormat] at h
  by_cases hx : ((resolveFilter filter setting key).2.1 = IncludeExcludeSetting.Exclude
      ∧ (resolveFilter filter setting key).2.2 = true)
  · rw [if_pos hx] at h
    simp only [Option.some.injEq] at h
    subst h
    exact ⟨rfl, rfl⟩
  · rw [if_neg hx] at h
    by_cases hu : cfg.unescapeFields
    · rw [if_pos hu] at h
      split at h
      · exact absurd h (by simp)
      · rename_i t2 fs2 heq
        simp only [Option.some.injEq] at h
        subst h
        have hp := formatValue_state cfg value (beginField cfg.punctuation key value fs).2.2
          (resolveFilter filter setting key).1 (resolveFilter filter setting key).2.1
          (t2, fs2) heq
        exact beginField_endField_restore cfg.punctuation key value fs fs2 hp.1 hp.2
    · rw [if_neg hu] at h
      simp only [Option.some.injEq] at h
      subst h
      exact beginField_endField_restore cfg.punctuation key value fs
        (beginField cfg.punctuation key value fs).2.2 rfl rfl
termination_by (sizeOf value, 1)

/-- Helper: every successful `format_value` call returns a state with the
flatten flag and key path it was given. -/
theorem formatValue_state (cfg : Cfg) (value : RawValue) (fs : FormattingState)
    (filter : Option KeyFilter) (setting : IncludeExcludeSetting)
    (p : List Tok × FormattingState)
    (h : formatValue cfg value fs filter setting = some p) :
    p.2.flatten = fs.flatten ∧ p.2.keyPath = fs.keyPath := by
  cases value with
  | str s =>
    cases s with
    | raw b =>
      simp only [formatValue, Option.map_eq_some'] at h
      obtain ⟨t, -, rfl⟩ := h
      exact ⟨rfl, rfl⟩
    | json src d =>
      simp only [formatValue, Option.map_eq_some'] at h
      obtain ⟨t, -, rfl⟩ := h
      exact ⟨rfl, rfl⟩
  | num b =>
    simp only [formatValue, Option.map_eq_some'] at h
    obtain ⟨t, -, rfl⟩ := h
    exact ⟨rfl, rfl⟩
  | boolean b =>
    simp only [formatValue, Option.map_eq_some'] at h
    obtain ⟨t, -, rfl⟩ := h
    exact ⟨rfl, rfl⟩
  | null =>
    simp only [formatValue, Option.map_eq_some'] at h
    obtain ⟨t, -, rfl⟩ := h
    exact ⟨rfl, rfl⟩
  | obj raw parsed =>
    cases parsed with
    | none => simp [formatValue] at h
    | some flds =>
      simp only [formatValue] at h
      split at h
      · exact absurd h (by simp)
      · rename_i toks fs2 hidden heq
        simp only [Option.some.injEq] at h
        subst h
        exact objFields_state cfg flds fs filter setting (toks, fs2, hidden) heq
  | arr raw parsed =>
    cases parsed with
    | none => simp [formatValue] at h
    | some es =>
      simp only [formatValue] at h
      split at h
      · exact absurd h (by simp)
      · rename_i toks fs2 heq
        simp only [Option.some.injEq] at h
        subst h
        exact arrElems_state cfg es true fs (toks, fs2) heq
termination_by (sizeOf value, 0)

/-- Helper: the object member loop preserves the flatten flag and key
path. -/
theorem objFields_state (cfg : Cfg) (flds : Fields) (fs : FormattingState)
    (filter : Option KeyFilter) (setting : IncludeExcludeSetting)
    (out : List Tok × FormattingState × Bool)
    (h : objFields cfg flds fs filter setting = some out) :
    out.2.1.flatten = fs.flatten ∧ out.2.1.keyPath = fs.keyPath := by
  cases flds with
  | nil =>
    simp only [objFields, Option.some.injEq] at h
    subst h
    exact ⟨rfl, rfl⟩
  | cons k v rest =>
    simp only [objFields] at h
    split at h
    · exact absurd h (by simp)
    · rename_i t1 fs1 shown h1
      split at h
      · exact absurd h (by simp)
      · rename_i t2 fs2 hidden h2
        simp only [Option.some.injEq] at h
        subst h
        have e1 := fieldFormat_state cfg k v fs filter setting (t1, fs1, shown) h1
        have e2 := objFields_state cfg rest fs1 filter setting (t2, fs2, hidden) h2
        exact ⟨e2.1.trans e1.1, e2.2.trans e1.2⟩
termination_by (sizeOf flds, 2)

/-- Helper: the array element loop preserves the flatten flag and key
path. -/
theorem arrElems_state (cfg : Cfg) (es : Elems) (first : Bool) (fs : FormattingState)
    (p : List Tok × FormattingState)
    (h : arrElems cfg es first fs = some p) :
    p.2.flatten = fs.flatten ∧ p.2.keyPath = fs.keyPath := by
  cases es with
  | nil =>
    simp only [arrElems, Option.some.injEq] at h
    subst h
    exact ⟨rfl, rfl⟩
  | cons v rest =>
    simp only [arrElems] at h
    split at h
    · exact absurd h (by simp)
    · rename_i t1 fs1 h1
      split at h
      · exact absurd h (by simp)
      · rename_i t2 fs2 h2
        simp only [Option.some.injEq] at h
        subst h
        have e1 := formatValue_state cfg v fs none .Unspecified (t1, fs1) h1
        have e2 := arrElems_state cfg rest false fs1 (t2, fs2) h2
        exact ⟨e2.1.trans e1.1, e2.2.trans e1.2⟩
termination_by (sizeOf es, 2)
end

/-- C7: (one) for any sequence of nested Key-Path Buffer `push(key)`
calls followed by matching `pop(n)` calls in reverse order with the byte
counts the pushes returned, the buffer content after all pops equals the
content before the first push; and (two) every successful field-rendering
call restores the exact flatten flag and key-path buffer state that
existed before it, on every exit path of `FieldFormatter::format`,
including when the field or its sub-fields were suppressed. -/
theorem claim_C7_push_pop_exactness :
    (∀ (st : List Nat) (ks : List (List Nat)),
      keyPathPopAll (keyPathPushAll st ks).1 (keyPathPushAll st ks).2 = st)
    ∧ (∀ (cfg : Cfg) (key : List Nat) (value : RawValue) (fs : FormattingState)
        (filter : Option KeyFilter) (setting : IncludeExcludeSetting)
        (out : List Tok × FormattingState × Bool),
      fieldFormat cfg key value fs filter setting = some out →
      out.2.1.flatten = fs.flatten ∧ out.2.1.keyPath = fs.keyPath) :=
  ⟨fun st ks => keyPathPopAll_keyPathPushAll ks st,
   fun cfg key value fs filter setting out h =>
     fieldFormat_state cfg key value fs filter setting out h⟩

/-- Witness for C7: the push/pop sequence on keys `a` and `b_c` over a
one-byte buffer restores it, and a concrete successful field render
returns the flatten flag and key path it started from. -/
theorem claim_C7_push_pop_exactness_witness :
    (keyPathPopAll (keyPathPushAll [107] [[97], [98, 95, 99]]).1
        (keyPathPushAll [107] [[97], [98, 95, 99]]).2 = [107])
    ∧ (({ keyPath := [], flatten := false, empty := false } : FormattingState).flatten
          = ({ keyPath := [], flatten := false, empty := true } : FormattingState).flatten
        ∧ ({ keyPath := [], flatten := false, empty := false } : FormattingState).keyPath
          = ({ keyPath := [], flatten := false, empty := true } : FormattingState).keyPath) :=
  ⟨claim_C7_push_pop_exactness.1 [107] [[97], [98, 95, 99]],
   claim_C7_push_pop_exactness.2 cfgRaw (strBytes ("k")) (.boolean true)
     { keyPath := [], flatten := false, empty := true } none .Unspecified
     ([.push .Key, .bytes (strBytes ("k")), .pop,
       .push .Field, .bytes cfgRaw.punctuation.fieldKeyValueSeparator, .pop,
       .push .String, .bytes (RawValue.boolean true).rawStr, .pop],
      { keyPath := [], flatten := false, empty := false }, true)
     (by simp [fieldFormat, formatValue, formatScalar, resolveFilter, beginField, endField,
           addElement, keyPrettify, RawValue.isObj, RawValue.rawStr, strBytes, cfgRaw, cfg0,
           punct0])⟩

theorem countEllipsis_append (a b : List Tok) :
    countEllipsis (a ++ b) = countEllipsis a + countEllipsis b :=
  List.countP_append _ _ _

/-- Helper: the tokens emitted by `begin` contain no ellipsis
indicator. -/
theorem beginField_count (p : Punctuation) (key : List Nat) (value : RawValue)
    (fs : FormattingState) :
    countEllipsis (beginField p key value fs).2.1 = 0 := by
  by_cases hb : (fs.flatten && value.isObj) = true <;>
    by_cases he : fs.empty <;>
      by_cases hf : fs.flatten <;>
        simp_all [beginField, addElement, countEllipsis, isEllipsisTok]

/-- Helper: scalar value tokens contain no ellipsis indicator. -/
theorem formatScalar_count (v : RawValue) (t : List Tok)
    (h : formatScalar v = some t) : countEllipsis t = 0 := by
  cases v with
  | str s =>
    simp only [formatScalar, Option.map_eq_some'] at h
    obtain ⟨out, -, rfl⟩ := h
    simp [countEllipsis, isEllipsisTok]
  | num b =>
    simp only [formatScalar, Option.some.injEq] at h
    subst h
    simp [countEllipsis, isEllipsisTok]
  | boolean b =>
    cases b <;>
      · simp only [formatScalar, Option.some.injEq] at h
        subst h
        simp [countEllipsis, isEllipsisTok]
  | null =>
    simp only [formatScalar, Option.some.injEq] at h
    subst h
    simp [countEllipsis, isEllipsisTok]
  | obj raw parsed => simp [formatScalar] at h
  | arr raw parsed => simp [formatScalar] at h

mutual
/-- Helper (C3): the ellipsis tokens of a successful field render count
the scopes with a suppression inside it, and its visibility report equals
the claim-side one. -/
theorem fieldFormat_count (cfg : Cfg) (key : List Nat) (value : RawValue)
    (fs : FormattingState) (filter : Option KeyFilter) (setting : IncludeExcludeSetting)
    (out : List Tok × FormattingState × Bool)
    (h : fieldFormat cfg key value fs filter setting = some out) :
    countEllipsis out.1 = (fieldScopes cfg key value filter setting).1
    ∧ out.2.2 = (fieldScopes cfg key value filter setting).2 := by
  obtain ⟨ot, ofs, ob⟩ := out
  simp only [fieldFormat] at h
  simp only [fieldScopes]
  by_cases hx : ((resolveFilter filter setting key).2.1 = IncludeExcludeSetting.Exclude
      ∧ (resolveFilter filter setting key).2.2 = true)
  · rw [if_pos hx] at h
    rw [if_pos hx]
    simp only [Option.some.injEq, Prod.mk.injEq] at h
    obtain ⟨h1, -, h3⟩ := h
    subst h1
    subst h3
    simp [countEllipsis]
  · rw [if_neg hx] at h
    rw [if_neg hx]
    by_cases hu : cfg.unescapeFields
    · rw [if_pos hu] at h
      split at h
      · exact absurd h (by simp)
      · rename_i t2 fs2 heq
        simp only [Option.some.injEq, Prod.mk.injEq] at h
        obtain ⟨h1, -, h3⟩ := h
        subst h1
        subst h3
        have hv := formatValue_count cfg value (beginField cfg.punctuation key value fs).2.2
          (resolveFilter filter setting key).1 (resolveFilter filter setting key).2.1
          (t2, fs2) heq
        simp only at hv
        rw [countEllipsis_append, beginField_count, hv]
        simp [hu]
    · rw [if_neg hu] at h
      simp only [Option.some.injEq, Prod.mk.injEq] at h
      obtain ⟨h1, -, h3⟩ := h
      subst h1
      subst h3
      have h0 : countEllipsis [Tok.push Element.String, Tok.bytes value.rawStr, Tok.pop] = 0 := by
        simp [countEllipsis, isEllipsisTok]
      rw [countEllipsis_append, beginField_count, h0]
      simp [hu]
termination_by (sizeOf value, 1)

/-- Helper (C3): the ellipsis tokens of a successful value render count
the scopes with a suppression inside it. -/
theorem formatValue_count (cfg : Cfg) (value : RawValue) (fs : FormattingState)
    (filter : Option KeyFilter) (setting : IncludeExcludeSetting)
    (p : List Tok × FormattingState)
    (h : formatValue cfg value fs filter setting = some p) :
    countEllipsis p.1 = valueScopes cfg value filter setting := by
  obtain ⟨pt, pf⟩ := p
  cases value with
  | str s =>
    cases s with
    | raw b =>
      simp only [formatValue, Option.map_eq_some'] at h
      obtain ⟨t, ht, heq⟩ := h
      simp only [Prod.mk.injEq] at heq
      obtain ⟨h1, -⟩ := heq
      subst h1
      simpa [valueScopes] using formatScalar_count _ t ht
    | json src d =>
      simp only [formatValue, Option.map_eq_some'] at h
      obtain ⟨t, ht, heq⟩ := h
      simp only [Prod.mk.injEq] at heq
      obtain ⟨h1, -⟩ := heq
      subst h1
      simpa [valueScopes] using formatScalar_count _ t ht
  | num b =>
    simp only [formatValue, Option.map_eq_some'] at h
    obtain ⟨t, ht, heq⟩ := h
    simp only [Prod.mk.injEq] at heq
    obtain ⟨h1, -⟩ := heq
    subst h1
    simpa [valueScopes] using formatScalar_count _ t ht
  | boolean b =>
    simp only [formatValue, Option.map_eq_some'] at h
    obtain ⟨t, ht, heq⟩ := h
    simp only [Prod.mk.injEq] at heq
    obtain ⟨h1, -⟩ := heq
    subst h1
    simpa [valueScopes] using formatScalar_count _ t ht
  | null =>
    simp only [formatValue, Option.map_eq_some'] at h
    obtain ⟨t, ht, heq⟩ := h
    simp only [Prod.mk.injEq] at heq
    obtain ⟨h1, -⟩ := heq
    subst h1
    simpa [valueScopes] using formatScalar_count _ t ht
  | obj raw parsed =>
    cases parsed with
    | none => simp [formatValue] at h
    | some flds =>
      simp only [formatValue] at h
      split at h
      · exact absurd h (by simp)
      · rename_i toks fs2 hidden heq
        simp only [Option.some.injEq, Prod.mk.injEq] at h
        obtain ⟨h1, -⟩ := h
        subst h1
        obtain ⟨ec, eh⟩ := objFields_count cfg flds fs filter setting (toks, fs2, hidden) heq
        simp only at ec eh
        simp only [valueScopes]
        rw [← ec, ← eh]
        cases hidden <;> split_ifs <;>
          simp [countEllipsis_append, countEllipsis, isEllipsisTok]
  | arr raw parsed =>
    cases parsed with
    | none => simp [formatValue] at h
    | some es =>
      simp only [formatValue] at h
      split at h
      · exact absurd h (by simp)
      · rename_i toks fs2 heq
        simp only [Option.some.injEq, Prod.mk.injEq] at h
        obtain ⟨h1, -⟩ := h
        subst h1
        have ec := arrElems_count cfg es true fs (toks, fs2) heq
        simp only at ec
        simp only [valueScopes]
        rw [← ec]
        simp [countEllipsis_append, countEllipsis, isEllipsisTok]
termination_by (sizeOf value, 0)

/-- Helper (C3): the ellipsis tokens of a successful object member loop
count the scopes with a suppression inside the members, and the loop
reports a suppression exactly when the claim-side count does. -/
theorem objFields_count (cfg : Cfg) (flds : Fields) (fs : FormattingState)
    (filter : Option KeyFilter) (setting : IncludeExcludeSetting)
    (out : List Tok × FormattingState × Bool)
    (h : objFields cfg flds fs filter setting = some out) :
    countEllipsis out.1 = (fieldsScopes cfg flds filter setting).1
    ∧ out.2.2 = (fieldsScopes cfg flds filter setting).2 := by
  obtain ⟨ot, ofs, ob⟩ := out
  cases flds with
  | nil =>
    simp only [objFields, Option.some.injEq, Prod.mk.injEq] at h
    obtain ⟨h1, -, h3⟩ := h
    subst h1
    subst h3
    simp [fieldsScopes, countEllipsis]
  | cons k v rest =>
    simp only [objFields] at h
    split at h
    · exact absurd h (by simp)
    · rename_i t1 fs1 shown h1
      split at h
      · exact absurd h (by simp)
      · rename_i t2 fs2 hidden h2
        simp only [Option.some.injEq, Prod.mk.injEq] at h
        obtain ⟨e1, -, e3⟩ := h
        subst e1
        subst e3
        obtain ⟨e1c, e1s⟩ := fieldFormat_count cfg k v fs filter setting (t1, fs1, shown) h1
        obtain ⟨e2c, e2s⟩ := objFields_count cfg rest fs1 filter setting (t2, fs2, hidden) h2
        simp only at e1c e1s e2c e2s
        simp only [fieldsScopes]
        rw [countEllipsis_append, e1c, e2c, e1s, e2s]
        exact ⟨rfl, rfl⟩
termination_by (sizeOf flds, 2)

/-- Helper (C3): the ellipsis tokens of a successful array element loop
count the scopes with a suppression inside the elements. -/
theorem arrElems_count (cfg : Cfg) (es : Elems) (first : Bool) (fs : FormattingState)
    (p : List Tok × FormattingState)
    (h : arrElems cfg es first fs = some p) :
    countEllipsis p.1 = elemsScopes cfg es := by
  obtain ⟨pt, pf⟩ := p
  cases es with
  | nil =>
    simp only [arrElems, Option.some.injEq, Prod.mk.injEq] at h
    obtain ⟨h1, -⟩ := h
    subst h1
    simp [elemsScopes, countEllipsis]
  | cons v rest =>
    simp only [arrElems] at h
    split at h
    · exact absurd h (by simp)
    · rename_i t1 fs1 h1
      split at h
      · exact absurd h (by simp)
      · rename_i t2 fs2 h2
        simp only [Option.some.injEq, Prod.mk.injEq] at h
        obtain ⟨h1e, -⟩ := h
        subst h1e
        have e1 := formatValue_count cfg v fs none .Unspecified (t1, fs1) h1
        have e2 := arrElems_count cfg rest false fs1 (t2, fs2) h2
        simp only at e1 e2
        simp only [elemsScopes]
        rw [countEllipsis_append, countEllipsis_append, e1, e2]
        cases first <;> simp [countEllipsis, isEllipsisTok]
termination_by (sizeOf es, 2)
end

/-- Helper (C3): the record-level fields loop counts scopes like the
claim-side `listFieldsScopes`. -/
theorem recordFieldsLoop_count (cfg : Cfg) (flds : List (List Nat × RawValue))
    (fs : FormattingState) (out : List Tok × FormattingState × Bool)
    (h : recordFieldsLoop cfg flds fs = some out) :
    countEllipsis out.1 = (listFieldsScopes cfg flds).1
    ∧ out.2.2 = (listFieldsScopes cfg flds).2 := by
  induction flds generalizing fs out with
  | nil =>
    obtain ⟨ot, ofs, ob⟩ := out
    simp only [recordFieldsLoop, Option.some.injEq, Prod.mk.injEq] at h
    obtain ⟨h1, -, h3⟩ := h
    subst h1
    subst h3
    simp [listFieldsScopes, countEllipsis]
  | cons kv rest ih =>
    obtain ⟨k, v⟩ := kv
    obtain ⟨ot, ofs, ob⟩ := out
    simp only [recordFieldsLoop] at h
    by_cases hh : (!cfg.hideEmptyFields || !v.isEmptyV) = true
    · rw [if_pos hh] at h
      split at h
      · exact absurd h (by simp)
      · rename_i t1 fs1 shown h1
        split at h
        · exact absurd h (by simp)
        · rename_i t2 fs2 hidden h2
          simp only [Option.some.injEq, Prod.mk.injEq] at h
          obtain ⟨e1, -, e3⟩ := h
          subst e1
          subst e3
          obtain ⟨e1c, e1s⟩ := fieldFormat_count cfg k v fs (some cfg.fields) .Unspecified
            (t1, fs1, shown) h1
          obtain ⟨e2c, e2s⟩ := ih fs1 (t2, fs2, hidden) h2
          simp only at e1c e1s e2c e2s
          simp only [listFieldsScopes]
          rw [if_pos hh, countEllipsis_append, e1c, e2c, e1s, e2s]
          exact ⟨rfl, rfl⟩
    · rw [if_neg hh] at h
      simp only [listFieldsScopes]
      rw [if_neg hh]
      exact ih fs (ot, ofs, ob) h

/-- Helper (C3): the time step emits no ellipsis indicator. -/
theorem timeStage_count (cfg : Cfg) (rec : Record) (fs : FormattingState) :
    countEllipsis (timeStage cfg rec fs).1 = 0 := by
  cases ht : rec.ts with
  | some c =>
    by_cases he : fs.empty <;>
      simp [timeStage, addElement, ht, he, countEllipsis, isEllipsisTok]
  | none =>
    by_cases hs : cfg.alwaysShowTime <;> by_cases he : fs.empty <;>
      simp [timeStage, addElement, ht, hs, he, countEllipsis, isEllipsisTok]

/-- Helper (C3): the level step emits no ellipsis indicator. -/
theorem levelStage_count (cfg : Cfg) (rec : Record) (fs : FormattingState) :
    countEllipsis (levelStage cfg rec fs).1 = 0 := by
  cases hl : rec.level with
  | some l =>
    by_cases he : fs.empty <;>
      simp [levelStage, addElement, hl, he, countEllipsis, isEllipsisTok]
  | none =>
    by_cases hs : cfg.alwaysShowLevel <;> by_cases he : fs.empty <;>
      simp [levelStage, addElement, hl, hs, he, countEllipsis, isEllipsisTok]

/-- Helper (C3): the logger step emits no ellipsis indicator. -/
theorem loggerStage_count (cfg : Cfg) (rec : Record) (fs : FormattingState) :
    countEllipsis (loggerStage cfg rec fs).1 = 0 := by
  cases hl : rec.logger with
  | some lg =>
    by_cases he : fs.empty <;>
      simp [loggerStage, addElement, hl, he, countEllipsis, isEllipsisTok]
  | none => simp [loggerStage, hl, countEllipsis, isEllipsisTok]

/-- Helper (C3): the caller step emits no ellipsis indicator. -/
theorem callerStage_count (cfg : Cfg) (rec : Record) :
    countEllipsis (callerStage cfg rec) = 0 := by
  cases hc : rec.caller <;> simp [callerStage, hc, countEllipsis, isEllipsisTok]

/-- Helper (C3): the message step emits exactly the ellipsis indicators of
the nested scopes of a non-string message rendered through the field path
(and none for string or absent messages). -/
theorem messageStage_count (cfg : Cfg) (rec : Record) (fs : FormattingState)
    (out : List Tok × FormattingState)
    (h : messageStage cfg rec fs = some out) :
    countEllipsis out.1 =
      (match rec.message with
       | some (.str _) => 0
       | some v => (fieldScopes cfg (strBytes ("msg")) v (some cfg.fields) .Unspecified).1
       | none => 0) := by
  obtain ⟨ot, ofs⟩ := out
  cases hm : rec.message with
  | none =>
    simp only [messageStage, hm, Option.some.injEq, Prod.mk.injEq] at h
    obtain ⟨h1, -⟩ := h
    subst h1
    simp [countEllipsis, isEllipsisTok]
  | some v =>
    cases v with
    | str s =>
      simp only [messageStage, hm] at h
      by_cases he : s.isEmpty = true
      · rw [if_pos he] at h
        simp only [Option.some.injEq, Prod.mk.injEq] at h
        obtain ⟨h1, -⟩ := h
        subst h1
        simp [countEllipsis]
      · rw [if_neg he] at h
        split at h
        · exact absurd h (by simp)
        · rename_i outb heq
          simp only [Option.some.injEq, Prod.mk.injEq] at h
          obtain ⟨h1, -⟩ := h
          subst h1
          by_cases hemp : fs.empty <;>
            simp [addElement, hemp, countEllipsis_append, countEllipsis, isEllipsisTok]
    | num b =>
      simp only [messageStage, hm] at h
      split at h
      · exact absurd h (by simp)
      · rename_i t1 fs1 shown heq
        simp only [Option.some.injEq, Prod.mk.injEq] at h
        obtain ⟨h1, -⟩ := h
        subst h1
        simpa using (fieldFormat_count cfg (strBytes ("msg")) _ fs (some cfg.fields)
          .Unspecified (t1, fs1, shown) heq).1
    | boolean b =>
      simp only [messageStage, hm] at h
      split at h
      · exact absurd h (by simp)
      · rename_i t1 fs1 shown heq
        simp only [Option.some.injEq, Prod.mk.injEq] at h
        obtain ⟨h1, -⟩ := h
        subst h1
        simpa using (fieldFormat_count cfg (strBytes ("msg")) _ fs (some cfg.fields)
          .Unspecified (t1, fs1, shown) heq).1
    | null =>
      simp only [messageStage, hm] at h
      split at h
      · exact absurd h (by simp)
      · rename_i t1 fs1 shown heq
        simp only [Option.some.injEq, Prod.mk.injEq] at h
        obtain ⟨h1, -⟩ := h
        subst h1
        simpa using (fieldFormat_count cfg (strBytes ("msg")) _ fs (some cfg.fields)
          .Unspecified (t1, fs1, shown) heq).1
    | obj raw parsed =>
      simp only [messageStage, hm] at h
      split at h
      · exact absurd h (by simp)
      · rename_i t1 fs1 shown heq
        simp only [Option.some.injEq, Prod.mk.injEq] at h
        obtain ⟨h1, -⟩ := h
        subst h1
        simpa using (fieldFormat_count cfg (strBytes ("msg")) _ fs (some cfg.fields)
          .Unspecified (t1, fs1, shown) heq).1
    | arr raw parsed =>
      simp only [messageStage, hm] at h
      split at h
      · exact absurd h (by simp)
      · rename_i t1 fs1 shown heq
        simp only [Option.some.injEq, Prod.mk.injEq] at h
        obtain ⟨h1, -⟩ := h
        subst h1
        simpa using (fieldFormat_count cfg (strBytes ("msg")) _ fs (some cfg.fields)
          .Unspecified (t1, fs1, shown) heq).1

/-- C3: a field whose resolved setting is Exclude at a leaf filter node is
dropped entirely — no tokens, state untouched, suppression reported — and
for every successfully rendered record the number of hidden-fields
(ellipsis) indicator tokens in the output equals the number of scopes
(the record's top-level field list and each rendered nested object) in
which at least one field was suppressed: exactly one indicator per such
scope, none for scopes without a suppression. -/
theorem claim_C3_filter_suppression :
    (∀ (cfg : Cfg) (key : List Nat) (value : RawValue) (fs : FormattingState)
        (filter : Option KeyFilter) (setting : IncludeExcludeSetting),
      (resolveFilter filter setting key).2.1 = .Exclude →
      (resolveFilter filter setting key).2.2 = true →
      fieldFormat cfg key value fs filter setting = some ([], fs, false))
    ∧ (∀ (cfg : Cfg) (rec : Record) (out : List Tok),
      formatRecord cfg rec = some out → countEllipsis out = recordScopes cfg rec) := by
  constructor
  · intro cfg key value fs filter setting h1 h2
    simp [fieldFormat, h1, h2]
  · intro cfg rec out h
    simp only [formatRecord] at h
    split at h
    · exact absurd h (by simp)
    · rename_i t4 fs4 hmsg
      split at h
      · exact absurd h (by simp)
      · rename_i t5 fs5 hidden hflds
        simp only [Option.some.injEq] at h
        subst h
        have c4 := messageStage_count cfg rec _ (t4, fs4) hmsg
        obtain ⟨c5, c5h⟩ := recordFieldsLoop_count cfg rec.fields _ (t5, fs5, hidden) hflds
        simp only at c4 c5 c5h
        subst c5h
        simp only [recordScopes, countEllipsis_append, timeStage_count, levelStage_count,
          loggerStage_count, callerStage_count, c4, c5]
        split_ifs <;> (simp [countEllipsis, isEllipsisTok]; try omega)

/-- Witness for C3: a record whose only field is suppressed by an
excluding root filter renders with exactly one ellipsis indicator, and a
directly excluded leaf field is dropped entirely. -/
theorem claim_C3_filter_suppression_witness :
    (fieldFormat cfg0 (strBytes ("k")) (.num [49])
        { keyPath := [], flatten := false, empty := true }
        (some (KeyFilter.node .Exclude [])) .Unspecified
      = some ([], { keyPath := [], flatten := false, empty := true }, false))
    ∧ countEllipsis [Tok.reset, Tok.push Element.Ellipsis,
        Tok.bytes punct0.hiddenFieldsIndicator, Tok.pop]
      = recordScopes { cfg0 with fields := KeyFilter.node .Exclude [] }
          { ts := none, level := none, logger := none, message := none,
            fields := [(strBytes ("k"), .num [49])], caller := none } :=
  ⟨claim_C3_filter_suppression.1 cfg0 (strBytes ("k")) (.num [49])
      { keyPath := [], flatten := false, empty := true }
      (some (KeyFilter.node .Exclude [])) .Unspecified (by decide) (by decide),
   claim_C3_filter_suppression.2 { cfg0 with fields := KeyFilter.node .Exclude [] }
      { ts := none, level := none, logger := none, message := none,
        fields := [(strBytes ("k"), .num [49])], caller := none }
      [Tok.reset, Tok.push Element.Ellipsis, Tok.bytes punct0.hiddenFieldsIndicator, Tok.pop]
      (by simp [formatRecord, initState, timeStage, levelStage, loggerStage, messageStage,
        recordFieldsLoop, callerStage, fieldFormat, resolveFilter, addElement,
        KeyFilter.getChild, KeyFilter.setting, KeyFilter.leaf, IncludeExcludeSetting.apply,
        RawValue.isEmptyV, cfg0, punct0, strBytes])⟩

/-- Helper (C8): the time step is the gated-segment protocol run on the
time segment. -/
theorem timeStage_stepSeg (cfg : Cfg) (rec : Record) (fs : FormattingState) :
    timeStage cfg rec fs = stepSeg fs (timeSegment cfg rec) := by
  cases ht : rec.ts with
  | some c => simp [timeStage, timeSegment, stepSeg, ht]
  | none =>
    by_cases hs : cfg.alwaysShowTime <;>
      simp [timeStage, timeSegment, stepSeg, ht, hs]

/-- Helper (C8): the level step is the gated-segment protocol run on the
level segment. -/
theorem levelStage_stepSeg (cfg : Cfg) (rec : Record) (fs : FormattingState) :
    levelStage cfg rec fs = stepSeg fs (levelSegment cfg rec) := by
  cases hl : rec.level with
  | some l => simp [levelStage, levelSegment, stepSeg, hl]
  | none =>
    by_cases hs : cfg.alwaysShowLevel <;>
      simp [levelStage, levelSegment, stepSeg, hl, hs]

/-- Helper (C8): the logger step is the gated-segment protocol run on the
logger segment. -/
theorem loggerStage_stepSeg (cfg : Cfg) (rec : Record) (fs : FormattingState) :
    loggerStage cfg rec fs = stepSeg fs (loggerSegment cfg rec) := by
  cases hl : rec.logger with
  | some lg => simp [loggerStage, loggerSegment, stepSeg, hl]
  | none => simp [loggerStage, loggerSegment, stepSeg, hl]

/-- Helper (C8): one gated step emits the gated join of its segment and
flips the empty flag exactly when the segment is present. -/
theorem stepSeg_gated (fs : FormattingState) (oseg : Option (List Tok × List Tok)) :
    (stepSeg fs oseg).1 = gatedJoin fs.empty oseg.toList
    ∧ (stepSeg fs oseg).2 = { fs with empty := fs.empty && oseg.toList.isEmpty } := by
  obtain ⟨kp, fl, em⟩ := fs
  cases oseg with
  | none => constructor <;> simp [stepSeg, gatedJoin]
  | some sb =>
    cases em <;> (constructor <;> simp [stepSeg, gatedJoin, addElement])

/-- Helper (C8): joining concatenated segment lists threads the gate. -/
theorem gatedJoin_append (e : Bool) (l1 l2 : List (List Tok × List Tok)) :
    gatedJoin e (l1 ++ l2) = gatedJoin e l1 ++ gatedJoin (e && l1.isEmpty) l2 := by
  induction l1 generalizing e with
  | nil => simp [gatedJoin]
  | cons sb rest ih =>
    obtain ⟨sep, body⟩ := sb
    simp [gatedJoin, ih false, List.append_assoc]

/-- Helper (C8): the first three steps of `format_record` emit the gated
join of the time, level and logger segments, leaving the per-record state
with the gate open exactly when none was present. -/
theorem headChain (cfg : Cfg) (rec : Record) :
    (timeStage cfg rec (initState cfg)).1
      ++ ((levelStage cfg rec (timeStage cfg rec (initState cfg)).2).1
        ++ (loggerStage cfg rec
            (levelStage cfg rec (timeStage cfg rec (initState cfg)).2).2).1)
    = gatedJoin true ((timeSegment cfg rec).toList ++ (levelSegment cfg rec).toList
        ++ (loggerSegment cfg rec).toList)
    ∧ (loggerStage cfg rec
        (levelStage cfg rec (timeStage cfg rec (initState cfg)).2).2).2
    = { keyPath := [], flatten := cfg.flatten && cfg.unescapeFields,
        empty := ((timeSegment cfg rec).toList ++ (levelSegment cfg rec).toList
          ++ (loggerSegment cfg rec).toList).isEmpty } := by
  rw [timeStage_stepSeg, levelStage_stepSeg, loggerStage_stepSeg]
  cases ho1 : timeSegment cfg rec <;> cases ho2 : levelSegment cfg rec <;>
    cases ho3 : loggerSegment cfg rec <;>
      (constructor <;>
        simp [stepSeg, gatedJoin, addElement, initState])

/-- C8 counterexample: the caller element is emitted outside the
add-element gate, so when a record consists of nothing but a caller, its
very first (and only) emitted element is preceded by a separator — the
space byte and the source-location punctuation — rendering as ` @ tc`
with a leading space, contradicting "the very first emitted element of a
record never receives a leading separator". -/
theorem claim_C8_counterexample :
    formatRecord cfg0 recCallerOnly
      = some [Tok.reset, Tok.push Element.Caller,
              Tok.bytes (32 :: punct0.sourceLocationSeparator),
              Tok.push Element.CallerInner, Tok.bytes (strBytes ("tc")), Tok.pop, Tok.pop]
    ∧ toksBytes [Tok.reset, Tok.push Element.Caller,
        Tok.bytes (32 :: punct0.sourceLocationSeparator),
        Tok.push Element.CallerInner, Tok.bytes (strBytes ("tc")), Tok.pop, Tok.pop]
      = strBytes (" @ tc")
    ∧ (strBytes (" @ tc")).head? = some 32 := by
  refine ⟨?_, by decide, by decide⟩
  simp [formatRecord, initState, timeStage, levelStage, loggerStage, messageStage,
    recordFieldsLoop, callerStage, Caller.callerBytes, cfg0, punct0, recCallerOnly,
    strBytes]

/-- C8 amended: `format_record` output equals the claim-side gated
layout: the fixed emission order time, level, logger, message, fields,
caller with each element independently optional; the separator gate
covers time, level, logger, the string message and the fields (the first
present gated element gets no leading separator, every later one exactly
one); the styling reset for an absent message, the record-level
hidden-fields indicator and the caller are appended outside the gate, the
caller always carrying its own leading space and separator. -/
theorem claim_C8_gated_layout (cfg : Cfg) (rec : Record) :
    formatRecord cfg rec = recordLayout cfg rec := by
  obtain ⟨hH, hS⟩ := headChain cfg rec
  simp only [List.append_assoc] at hH hS
  have hH' : ∀ X : List Tok,
      (timeStage cfg rec (initState cfg)).1
        ++ ((levelStage cfg rec (timeStage cfg rec (initState cfg)).2).1
          ++ ((loggerStage cfg rec
              (levelStage cfg rec (timeStage cfg rec (initState cfg)).2).2).1 ++ X))
      = gatedJoin true ((timeSegment cfg rec).toList ++ ((levelSegment cfg rec).toList
          ++ (loggerSegment cfg rec).toList)) ++ X := by
    intro X
    rw [← hH]
    simp [List.append_assoc]
  cases hm : rec.message with
  | none =>
    simp only [formatRecord, recordLayout, messageStage, msgStringSegment, hm,
      List.append_assoc, List.append_nil, Option.toList_none, Option.toList_some]
    rw [hS]
    cases hfl : recordFieldsLoop cfg rec.fields
        { keyPath := [], flatten := cfg.flatten && cfg.unescapeFields,
          empty := ((timeSegment cfg rec).toList ++ ((levelSegment cfg rec).toList
            ++ (loggerSegment cfg rec).toList)).isEmpty } with
    | none => rfl
    | some r =>
      obtain ⟨t5, fs5, hidden⟩ := r
      simp only [Option.some.injEq]
      rw [← hH']
  | some v =>
    cases v with
    | str s =>
      by_cases he : s.isEmpty = true
      · simp only [formatRecord, recordLayout, messageStage, msgStringSegment, hm, he,
          if_true, List.append_assoc, List.append_nil, Option.toList_none, Option.toList_some]
        rw [hS]
        cases hfl : recordFieldsLoop cfg rec.fields
            { keyPath := [], flatten := cfg.flatten && cfg.unescapeFields,
              empty := ((timeSegment cfg rec).toList ++ ((levelSegment cfg rec).toList
                ++ (loggerSegment cfg rec).toList)).isEmpty } with
        | none => rfl
        | some r =>
          obtain ⟨t5, fs5, hidden⟩ := r
          simp only [Option.some.injEq]
          rw [← hH']
      · cases hmf : messageFormatAuto s [] with
        | none =>
          simp [formatRecord, recordLayout, messageStage, msgStringSegment, hm, he, hmf]
        | some outb =>
          simp only [formatRecord, recordLayout, messageStage, msgStringSegment, hm, he,
            hmf, Bool.false_eq_true, if_false, Option.map_some', Option.toList_none,
            Option.toList_some, timeStage_stepSeg, levelStage_stepSeg, loggerStage_stepSeg]
          cases ho1 : timeSegment cfg rec <;>
            cases ho2 : levelSegment cfg rec <;>
              cases ho3 : loggerSegment cfg rec <;>
                simp [stepSeg, addElement, initState, gatedJoin, List.append_assoc]
    | num b =>
      simp only [formatRecord, recordLayout, messageStage, msgStringSegment, hm,
        List.append_assoc, List.append_nil, Option.toList_none, Option.toList_some]
      rw [hS]
      cases hmsg : fieldFormat cfg (strBytes ("msg")) (.num b)
          { keyPath := [], flatten := cfg.flatten && cfg.unescapeFields,
            empty := ((timeSegment cfg rec).toList ++ ((levelSegment cfg rec).toList
              ++ (loggerSegment cfg rec).toList)).isEmpty }
          (some cfg.fields) .Unspecified with
      | none => rfl
      | some r =>
        obtain ⟨t4, fs4, sh⟩ := r
        simp only [Option.map_some', Option.some.injEq]
        cases hfl : recordFieldsLoop cfg rec.fields fs4 with
        | none => rfl
        | some r5 =>
          obtain ⟨t5, fs5, hidden⟩ := r5
          simp only [Option.some.injEq]
          rw [← hH']
    | boolean b =>
      simp only [formatRecord, recordLayout, messageStage, msgStringSegment, hm,
        List.append_assoc, List.append_nil, Option.toList_none, Option.toList_some]
      rw [hS]
      cases hmsg : fieldFormat cfg (strBytes ("msg")) (.boolean b)
          { keyPath := [], flatten := cfg.flatten && cfg.unescapeFields,
            empty := ((timeSegment cfg rec).toList ++ ((levelSegment cfg rec).toList
              ++ (loggerSegment cfg rec).toList)).isEmpty }
          (some cfg.fields) .Unspecified with
      | none => rfl
      | some r =>
        obtain ⟨t4, fs4, sh⟩ := r
        simp only [Option.map_some', Option.some.injEq]
        cases hfl : recordFieldsLoop cfg rec.fields fs4 with
        | none => rfl
        | some r5 =>
          obtain ⟨t5, fs5, hidden⟩ := r5
          simp only [Option.some.injEq]
          rw [← hH']
    | null =>
      simp only [formatRecord, recordLayout, messageStage, msgStringSegment, hm,
        List.append_assoc, List.append_nil, Option.toList_none, Option.toList_some]
      rw [hS]
      cases hmsg : fieldFormat cfg (strBytes ("msg")) .null
          { keyPath := [], flatten := cfg.flatten && cfg.unescapeFields,
            empty := ((timeSegment cfg rec).toList ++ ((levelSegment cfg rec).toList
              ++ (loggerSegment cfg rec).toList)).isEmpty }
          (some cfg.fields) .Unspecified with
      | none => rfl
      | some r =>
        obtain ⟨t4, fs4, sh⟩ := r
        simp only [Option.map_some', Option.some.injEq]
        cases hfl : recordFieldsLoop cfg rec.fields fs4 with
        | none => rfl
        | some r5 =>
          obtain ⟨t5, fs5, hidden⟩ := r5
          simp only [Option.some.injEq]
          rw [← hH']
    | obj raw parsed =>
      simp only [formatRecord, recordLayout, messageStage, msgStringSegment, hm,
        List.append_assoc, List.append_nil, Option.toList_none, Option.toList_some]
      rw [hS]
      cases hmsg : fieldFormat cfg (strBytes ("msg")) (.obj raw parsed)
          { keyPath := [], flatten := cfg.flatten && cfg.unescapeFields,
            empty := ((timeSegment cfg rec).toList ++ ((levelSegment cfg rec).toList
              ++ (loggerSegment cfg rec).toList)).isEmpty }
          (some cfg.fields) .Unspecified with
      | none => rfl
      | some r =>
        obtain ⟨t4, fs4, sh⟩ := r
        simp only [Option.map_some', Option.some.injEq]
        cases hfl : recordFieldsLoop cfg rec.fields fs4 with
        | none => rfl
        | some r5 =>
          obtain ⟨t5, fs5, hidden⟩ := r5
          simp only [Option.some.injEq]
          rw [← hH']
    | arr raw parsed =>
      simp only [formatRecord, recordLayout, messageStage, msgStringSegment, hm,
        List.append_assoc, List.append_nil, Option.toList_none, Option.toList_some]
      rw [hS]
      cases hmsg : fieldFormat cfg (strBytes ("msg")) (.arr raw parsed)
          { keyPath := [], flatten := cfg.flatten && cfg.unescapeFields,
            empty := ((timeSegment cfg rec).toList ++ ((levelSegment cfg rec).toList
              ++ (loggerSegment cfg rec).toList)).isEmpty }
          (some cfg.fields) .Unspecified with
      | none => rfl
      | some r =>
        obtain ⟨t4, fs4, sh⟩ := r
        simp only [Option.map_some', Option.some.injEq]
        cases hfl : recordFieldsLoop cfg rec.fields fs4 with
        | none => rfl
        | some r5 =>
          obtain ⟨t5, fs5, hidden⟩ := r5
          simp only [Option.some.injEq]
          rw [← hH']

/-- Witness for C6 amended at the single-element array of the
escape-encoded string decoding to `[x]`: the element is double-quoted by
the bracket exception inside the array. -/
theorem claim_C6_nested_same_pipeline_witness :
    formatValue cfg0 (.arr [91, 93] (some (.cons (.str (.json [113] (some (strBytes ("[x]"))))) .nil)))
        { keyPath := [], flatten := false, empty := false } none .Unspecified
      = some ([.push .Array, .bytes [91], .push .String,
               .bytes (withAutoTrim (strBytes ("\"[x]\""))), .pop,
               .bytes [93], .pop],
          { keyPath := [], flatten := false, empty := false }) := by
  have h := claim_C6_nested_same_pipeline cfg0
    { keyPath := [], flatten := false, empty := false } [91, 93] [113]
    (some (strBytes ("[x]"))) (strBytes ("\"[x]\"")) (by decide)
  exact h

end Hl
